import Mathlib

/-!
# GearUp: the listing and reservation workflow of `app.js`

A shallow embedding of the browser script `src/app.js`.  Module-level variables
(`carsData`, `activeCar`), the DOM fields the script reads or writes, and
`localStorage` become fields of one `Page` record; every function or event
listener of the script becomes a function on `Page`.  What the script awaits
from the network is an argument of the function that models the continuation.
Browser built-ins are modelled from their standards (URLSearchParams, Date,
the `value` of a date input, the HTML tokenizer that reads `innerHTML`);
`JSON.parse`, the text of an engine `TypeError` and `toLocaleString` are
parameters collected in `Env`.
-/

namespace GearUp

/-! ## JavaScript values -/

/-- A value produced by `JSON.parse` / `Response.json()`.  A number carries the
text `String(n)` gives for it; the only numbers whose text is `0` are `0` and
`-0`, the falsy ones.  An object is its list of own entries (keys unique). -/
inductive Json where
  | null
  | bool (b : Bool)
  | num (text : String)
  | str (s : String)
  | arr (xs : List Json)
  | obj (kvs : List (String × Json))

/-- A JavaScript value that may be `undefined` (`none`). -/
abbrev JsVal := Option Json

/-- Built-in `ToBoolean` on a JSON value. -/
def truthy : Json → Bool
  | .null => false
  | .bool b => b
  | .num t => t != "0"
  | .str s => s != ""
  | .arr _ => true
  | .obj _ => true

/-- Built-in `ToBoolean` on a possibly undefined value. -/
def truthyVal : JsVal → Bool
  | none => false
  | some j => truthy j

mutual
/-- Built-in `ToString` on a JSON value (`String(v)`, template interpolation). -/
def jsToString : Json → String
  | .null => "null"
  | .bool b => if b then "true" else "false"
  | .num t => t
  | .str s => s
  | .arr xs => joinElems xs
  | .obj _ => "[object Object]"
/-- Built-in `Array.prototype.join(",")`, which is what `ToString` does on an array. -/
def joinElems : List Json → String
  | [] => ""
  | [x] => elemText x
  | x :: y :: r => elemText x ++ "," ++ joinElems (y :: r)
/-- The text of one array element inside `join`: `null` gives the empty text. -/
def elemText : Json → String
  | .null => ""
  | .bool b => if b then "true" else "false"
  | .num t => t
  | .str s => s
  | .arr xs => joinElems xs
  | .obj _ => "[object Object]"
end

/-- Built-in `ToString` on a possibly undefined value. -/
def valToString : JsVal → String
  | none => "undefined"
  | some j => jsToString j

/-- Built-in `Array.isArray(v)` together with the elements. -/
def arrayItems : Json → Option (List Json)
  | .arr xs => some xs
  | _ => none

/-- What the script takes from the platform without defining it. -/
structure Env where
  /-- `JSON.parse(text)`: the value, or the message of the `SyntaxError`. -/
  jsonParse : String → Except String Json
  /-- Message of the `TypeError` raised by reading property `name` of `null`. -/
  typeErrorMsg : String → String
  /-- `Number(v).toLocaleString()`. -/
  priceText : JsVal → String

/-- Property read `v.name` for the property names the script uses (none of them
is on a built-in prototype): a `TypeError` on `null`, the entry on an object,
`undefined` on every other value. -/
def getProp (env : Env) (v : Json) (name : String) : Except String JsVal :=
  match v with
  | .null => .error (env.typeErrorMsg name)
  | .obj kvs => .ok (kvs.lookup name)
  | _ => .ok none

/-- Built-in `v === s` for a string `s`. -/
def strictEqStr : JsVal → String → Bool
  | some (.str t), s => t == s
  | _, _ => false

/-! ## localStorage -/

/-- The key-value string store: `none` is a missing key (`getItem` gives `null`). -/
abbrev Storage := String → Option String

/-- Built-in `localStorage.getItem(key)`. -/
def Storage.getItem (ls : Storage) (key : String) : Option String := ls key

/-- Built-in `localStorage.setItem(key, value)`. -/
def Storage.setItem (ls : Storage) (key value : String) : Storage :=
  fun k => if k = key then some value else ls k

/-- Built-in `localStorage.removeItem(key)`. -/
def Storage.removeItem (ls : Storage) (key : String) : Storage :=
  fun k => if k = key then none else ls k

/-- The session object `{ token, user }` returned by `getAuth`. -/
structure Auth where
  token : String
  user : Json

/-- The `try` block of `getAuth` (lines 6-8): `JSON.parse` may throw. -/
def getAuthBody (env : Env) (ls : Storage) : Except String (Option Auth) := do
  let token := ls.getItem "token"
  let raw := match ls.getItem "user" with
    | some s => if s = "" then "null" else s
    | none => "null"
  let user ← env.jsonParse raw
  match token with
  | some t => if t ≠ "" ∧ truthy user = true then pure (some ⟨t, user⟩) else pure none
  | none => pure none

/-- Script `getAuth()` as a JavaScript call: its completion is a value or a throw. -/
def getAuthResult (env : Env) (ls : Storage) : Except String (Option Auth) :=
  match getAuthBody env ls with
  | .ok r => .ok r
  | .error _ => .ok none

/-- The value of `getAuth()`; `none` is `null`. -/
def getAuth (env : Env) (ls : Storage) : Option Auth :=
  match getAuthResult env ls with
  | .ok r => r
  | .error _ => none

/-! ## URLSearchParams -/

/-- The list of name-value pairs of a `URLSearchParams` object. -/
structure URLSearchParams where
  entries : List (String × String)

/-- Built-in `new URLSearchParams()`. -/
def URLSearchParams.empty : URLSearchParams := ⟨[]⟩

/-- Set the value of the first pair named `name`, remove the other such pairs. -/
def replaceFirst (name value : String) : List (String × String) → List (String × String)
  | [] => []
  | e :: r =>
    if e.1 = name then (name, value) :: r.filter (fun x => x.1 != name)
    else e :: replaceFirst name value r

/-- Built-in `params.set(name, value)`. -/
def URLSearchParams.set (ps : URLSearchParams) (name value : String) : URLSearchParams :=
  if ps.entries.any (fun e => e.1 == name) then ⟨replaceFirst name value ps.entries⟩
  else ⟨ps.entries ++ [(name, value)]⟩

/-- UTF-8 bytes of one code point. -/
def utf8Bytes (c : Char) : List Nat :=
  let n := c.toNat
  if n < 0x80 then [n]
  else if n < 0x800 then [0xC0 + n / 64, 0x80 + n % 64]
  else if n < 0x10000 then [0xE0 + n / 4096, 0x80 + (n / 64) % 64, 0x80 + n % 64]
  else [0xF0 + n / 262144, 0x80 + (n / 4096) % 64, 0x80 + (n / 64) % 64, 0x80 + n % 64]

/-- UTF-8 bytes of a string. -/
def utf8 (s : String) : List Nat := s.data.flatMap utf8Bytes

/-- Upper-case hexadecimal digit. -/
def hexDigit (n : Nat) : Char := if n < 10 then Char.ofNat (48 + n) else Char.ofNat (55 + n)

/-- Bytes the `application/x-www-form-urlencoded` serializer leaves as they
are: ASCII alphanumerics and `*`, `-`, `.`, `_`. -/
def isUnreserved (b : Nat) : Bool :=
  (48 ≤ b && b ≤ 57) || (65 ≤ b && b ≤ 90) || (97 ≤ b && b ≤ 122) ||
    b == 42 || b == 45 || b == 46 || b == 95

/-- Serialization of one byte: space becomes `+`, other reserved bytes `%XX`. -/
def encodeByte (b : Nat) : List Char :=
  if b = 0x20 then ['+']
  else if isUnreserved b then [Char.ofNat b]
  else ['%', hexDigit (b / 16), hexDigit (b % 16)]

/-- Serialization of a byte sequence. -/
def encodeBytes (bs : List Nat) : List Char := bs.flatMap encodeByte

/-- Serialization of one name or value. -/
def urlencode (s : String) : List Char := encodeBytes (utf8 s)

/-- Serialization of one pair: `name=value`. -/
def encodePair (e : String × String) : List Char := urlencode e.1 ++ '=' :: urlencode e.2

/-- The pairs joined with `&`. -/
def joinAmp : List (List Char) → List Char
  | [] => []
  | [x] => x
  | x :: y :: r => x ++ '&' :: joinAmp (y :: r)

/-- Built-in `params.toString()`. -/
def URLSearchParams.toString (ps : URLSearchParams) : String :=
  String.mk (joinAmp (ps.entries.map encodePair))

/-- Value of a hexadecimal digit. -/
def hexVal (c : Char) : Option Nat :=
  let n := c.toNat
  if 48 ≤ n ∧ n ≤ 57 then some (n - 48)
  else if 65 ≤ n ∧ n ≤ 70 then some (n - 55)
  else if 97 ≤ n ∧ n ≤ 102 then some (n - 87)
  else none

/-- What one character that starts no `%XX` escape decodes to. -/
def plainBytes (c : Char) : List Nat :=
  if c = '+' then [32] else utf8Bytes c

/-- The decoding step of the `application/x-www-form-urlencoded` parser, the
one a server applies to the query: `+` is a space, `%XX` is the byte `XX`, any
other character stands for its UTF-8 bytes. -/
def percentDecode : List Char → List Nat
  | [] => []
  | [c] => plainBytes c
  | [c, a] => plainBytes c ++ plainBytes a
  | c :: a :: b :: r =>
    if c = '%' then
      match hexVal a, hexVal b with
      | some x, some y => (16 * x + y) :: percentDecode r
      | _, _ => 37 :: percentDecode (a :: b :: r)
    else plainBytes c ++ percentDecode (a :: b :: r)

/-- The sequences between the `&` of a query. -/
def splitAmp : List Char → List (List Char)
  | [] => [[]]
  | c :: r =>
    if c = '&' then [] :: splitAmp r
    else
      match splitAmp r with
      | [] => [[c]]
      | h :: t => (c :: h) :: t

/-- A sequence cut at its first `=`; without one the value is empty. -/
def splitEq : List Char → List Char × List Char
  | [] => ([], [])
  | c :: r =>
    if c = '=' then ([], r)
    else ((c :: (splitEq r).1), (splitEq r).2)

/-- The `application/x-www-form-urlencoded` parser up to the final UTF-8
decoding: the name and the value of every parameter of a query, as bytes. -/
def parseQuery (s : String) : List (List Nat × List Nat) :=
  ((splitAmp s.data).filter (fun seg => !seg.isEmpty)).map
    (fun seg => (percentDecode (splitEq seg).1, percentDecode (splitEq seg).2))

/-! ## Dates

`Date` after ECMA-262: a time value is a number of milliseconds since the epoch
(`none` is `NaN`, an invalid date), a day number is `floor(t / msPerDay)`.  The
local time zone is a parameter. -/

/-- Milliseconds in a day. -/
def msPerDay : Int := 86400000

/-- The local time zone adjustment `LocalTZA(t, isUTC)`, in milliseconds: the
offset in force at the UTC instant `t`, and the one used to read the local
wall-clock time `t`. -/
structure TimeZone where
  offsetAtUTC : Int → Int
  offsetAtLocal : Int → Int

/-- Built-in `LocalTime(t)`. -/
def localTime (tz : TimeZone) (t : Int) : Int := t + tz.offsetAtUTC t

/-- Built-in `UTC(t)`. -/
def utcTime (tz : TimeZone) (t : Int) : Int := t - tz.offsetAtLocal t

/-- Whether year `y` has 366 days. -/
def isLeapYear (y : Int) : Bool :=
  (y % 4 == 0 && y % 100 != 0) || y % 400 == 0

/-- Built-in `DayFromYear(y)`: the day number of the first day of year `y`. -/
def dayFromYear (y : Int) : Int :=
  365 * (y - 1970) + (y - 1969) / 4 - (y - 1901) / 100 + (y - 1601) / 400

/-- Built-in `YearFromTime` on a day number: the year whose first day is the last one
not after day `z`; an estimate from the mean year length, moved by one when
it is off. -/
def yearFromDay (z : Int) : Int :=
  let e := 1970 + (400 * z) / 146097
  if z < dayFromYear e then e - 1
  else if dayFromYear (e + 1) ≤ z then e + 1
  else e

/-- Built-in `DayWithinYear`. -/
def dayWithinYear (z : Int) : Int := z - dayFromYear (yearFromDay z)

/-- The extra day of a leap year. -/
def leapDay (leap : Bool) : Int := if leap then 1 else 0

/-- Days of the year before month `m` (0 = January), the table of
`MonthFromTime`. -/
def daysBeforeMonth (leap : Bool) (m : Int) : Int :=
  if m ≤ 0 then 0
  else if m = 1 then 31
  else if m = 2 then 59 + leapDay leap
  else if m = 3 then 90 + leapDay leap
  else if m = 4 then 120 + leapDay leap
  else if m = 5 then 151 + leapDay leap
  else if m = 6 then 181 + leapDay leap
  else if m = 7 then 212 + leapDay leap
  else if m = 8 then 243 + leapDay leap
  else if m = 9 then 273 + leapDay leap
  else if m = 10 then 304 + leapDay leap
  else 334 + leapDay leap

/-- The month (0 = January) holding day `d` of a year. -/
def monthOfYearDay (leap : Bool) (d : Int) : Int :=
  if d < 31 then 0
  else if d < 59 + leapDay leap then 1
  else if d < 90 + leapDay leap then 2
  else if d < 120 + leapDay leap then 3
  else if d < 151 + leapDay leap then 4
  else if d < 181 + leapDay leap then 5
  else if d < 212 + leapDay leap then 6
  else if d < 243 + leapDay leap then 7
  else if d < 273 + leapDay leap then 8
  else if d < 304 + leapDay leap then 9
  else if d < 334 + leapDay leap then 10
  else 11

/-- Built-in `MonthFromTime` on a day number (0 = January). -/
def monthFromDay (z : Int) : Int :=
  monthOfYearDay (isLeapYear (yearFromDay z)) (dayWithinYear z)

/-- Built-in `DateFromTime` on a day number: the day of the month, from 1. -/
def dateFromDay (z : Int) : Int :=
  dayWithinYear z - daysBeforeMonth (isLeapYear (yearFromDay z)) (monthFromDay z) + 1

/-- Built-in `MakeDay(year, month, date)`. -/
def makeDay (year month date : Int) : Int :=
  let ym := year + month / 12
  let mn := month % 12
  dayFromYear ym + daysBeforeMonth (isLeapYear ym) mn + date - 1

/-- Built-in `TimeClip`. -/
def timeClip (t : Int) : Option Int :=
  if t.natAbs ≤ 8640000000000000 then some t else none

/-- Number of days of month `m` (1 = January). -/
def daysInMonth (leap : Bool) (m : Int) : Int :=
  if m = 2 then 28 + leapDay leap
  else if m = 4 ∨ m = 6 ∨ m = 9 ∨ m = 11 then 30
  else 31

/-- The character of a decimal digit. -/
def digitChar (k : Nat) : Char := Char.ofNat (48 + k)

/-- The value of a decimal digit character. -/
def digitVal (c : Char) : Option Nat :=
  if 48 ≤ c.toNat ∧ c.toNat ≤ 57 then some (c.toNat - 48) else none

/-- The number written by a sequence of digits, `acc` being what was read. -/
def digitsVal (acc : Nat) : List Char → Option Nat
  | [] => some acc
  | c :: r =>
    match digitVal c with
    | some k => digitsVal (10 * acc + k) r
    | none => none

/-- A date written `YYYY-MM-DD`, as year, month (1 = January) and day; `none`
when the text has another shape or names no calendar day. -/
def parseDate4 (s : String) : Option (Int × Int × Int) :=
  match s.data with
  | [y1, y2, y3, y4, s1, m1, m2, s2, d1, d2] =>
    match digitsVal 0 [y1, y2, y3, y4], digitsVal 0 [m1, m2], digitsVal 0 [d1, d2] with
    | some y, some m, some d =>
      if s1 = '-' ∧ s2 = '-' ∧ 1 ≤ m ∧ m ≤ 12 ∧ 1 ≤ d
          ∧ (d : Int) ≤ daysInMonth (isLeapYear y) m then
        some ((y : Int), (m : Int), (d : Int))
      else none
    | _, _, _ => none
  | _ => none

/-- Built-in `new Date(text)` for the texts the script passes, date-only forms
`YYYY-MM-DD` with a year of four digits: midnight UTC of that day.  Any other
text is taken as an invalid date; what an engine makes of a year of five
digits or more is implementation-defined and not modelled. -/
def dateParse (s : String) : Option Int :=
  match parseDate4 s with
  | some (y, m, d) => timeClip (makeDay y (m - 1) d * msPerDay)
  | none => none

/-- Built-in `d.getDate()`. -/
def getDate (tz : TimeZone) (t : Option Int) : Option Int :=
  match t with
  | some t => some (dateFromDay (localTime tz t / msPerDay))
  | none => none

/-- Built-in `d.setDate(dt)`: the new time value. -/
def setDate (tz : TimeZone) (t : Option Int) (dt : Option Int) : Option Int :=
  match t, dt with
  | some t, some dt =>
    let tl := localTime tz t
    let day := makeDay (yearFromDay (tl / msPerDay)) (monthFromDay (tl / msPerDay)) dt
    timeClip (utcTime tz (day * msPerDay + tl % msPerDay))
  | _, _ => none

/-- Two decimal digits. -/
def pad2 (n : Nat) : List Char := [digitChar (n / 10 % 10), digitChar (n % 10)]

/-- Three decimal digits. -/
def pad3 (n : Nat) : List Char := digitChar (n / 100 % 10) :: pad2 n

/-- Four decimal digits. -/
def pad4 (n : Nat) : List Char := digitChar (n / 1000 % 10) :: pad3 n

/-- Six decimal digits. -/
def pad6 (n : Nat) : List Char :=
  digitChar (n / 100000 % 10) :: digitChar (n / 10000 % 10) :: pad4 n

/-- The year of `toISOString`: four digits from 0 to 9999, otherwise a sign
and six digits. -/
def isoYear (y : Int) : List Char :=
  if 0 ≤ y ∧ y ≤ 9999 then pad4 y.toNat
  else if y < 0 then '-' :: pad6 y.natAbs
  else '+' :: pad6 y.toNat

/-- Built-in `d.toISOString()`; `none` is the `RangeError` thrown on an invalid date. -/
def toISOString (t : Option Int) : Option String :=
  match t with
  | none => none
  | some t =>
    let z := t / msPerDay
    let ms := (t % msPerDay).toNat
    some (String.mk (isoYear (yearFromDay z) ++ '-' :: pad2 (monthFromDay z + 1).toNat
      ++ '-' :: pad2 (dateFromDay z).toNat
      ++ 'T' :: pad2 (ms / 3600000) ++ ':' :: pad2 (ms / 60000 % 60)
      ++ ':' :: pad2 (ms / 1000 % 60) ++ '.' :: pad3 (ms % 1000) ++ ['Z']))

/-- Built-in `s.slice(0, n)` on a text without astral characters. -/
def sliceTo (n : Nat) (s : String) : String := String.mk (s.data.take n)

/-- Built-in `String(n).padStart(2, "0")`. -/
def padStart2 (s : String) : String :=
  if s.length < 2 then String.mk (List.replicate (2 - s.length) '0' ++ s.data) else s

/-- Script `todayISO()` (lines 20-25) at the instant `now`. -/
def todayISO (tz : TimeZone) (now : Int) : String :=
  let z := localTime tz now / msPerDay
  let m := padStart2 (toString (monthFromDay z + 1))
  let day := padStart2 (toString (dateFromDay z))
  toString (yearFromDay z) ++ "-" ++ m ++ "-" ++ day

/-- UTF-16 code units of a text. -/
def utf16 (s : String) : List Nat :=
  s.data.flatMap (fun c =>
    if c.toNat < 0x10000 then [c.toNat]
    else [0xD800 + (c.toNat - 0x10000) / 1024, 0xDC00 + (c.toNat - 0x10000) % 1024])

/-- Lexicographic order on code unit sequences. -/
def unitsLt : List Nat → List Nat → Bool
  | _, [] => false
  | [], _ :: _ => true
  | a :: r, b :: t => a < b || (a == b && unitsLt r t)

/-- Built-in `a < b` on strings. -/
def jsStrLt (a b : String) : Bool := unitsLt (utf16 a) (utf16 b)

/-- Built-in `a <= b` on strings. -/
def jsStrLe (a b : String) : Bool := !jsStrLt b a

/-- A valid date string of HTML: a year of four digits or more, above zero,
then `-MM-DD` naming a day of that month. -/
def isValidDateString (s : String) : Bool :=
  match s.data.reverse with
  | d2 :: d1 :: s2 :: m2 :: m1 :: s1 :: yr =>
    match digitsVal 0 yr.reverse, digitsVal 0 [m1, m2], digitsVal 0 [d1, d2] with
    | some y, some m, some d =>
      s1 == '-' && s2 == '-' && decide (4 ≤ yr.length) && decide (1 ≤ y) && decide (1 ≤ m)
        && decide (m ≤ 12) && decide (1 ≤ d)
        && decide ((d : Int) ≤ daysInMonth (isLeapYear y) m)
    | _, _, _ => false
  | _ => false

/-- The value sanitization of a date input: a text that is not a valid date
string becomes the empty text. -/
def sanitizeDate (s : String) : String := if isValidDateString s then s else ""

/-! ## HTML

The tokenizer of the HTML standard, as far as it decides which tags a markup
holds: the data, tag, attribute and comment states.  Character references, the
raw-text elements (`script`, `style`, `textarea`, `title`) and tree
construction are left out; every start tag `li` of class `card` the tokenizer
emits is taken to make one list item of the document. -/

/-- The tag token being read: whether it is an end tag, its name, and the value
of its first `class` attribute. -/
structure TagAcc where
  isEnd : Bool
  name : List Char
  cls : Option (List Char)
  deriving DecidableEq

/-- States of the tokenizer. -/
inductive TokState where
  | data
  | tagOpen
  | endTagOpen
  | tagName (t : TagAcc)
  | beforeAttrName (t : TagAcc)
  | attrName (t : TagAcc) (n : List Char)
  | afterAttrName (t : TagAcc) (keep : Bool)
  | beforeAttrValue (t : TagAcc) (keep : Bool)
  | attrValueDq (t : TagAcc) (keep : Bool) (v : List Char)
  | attrValueSq (t : TagAcc) (keep : Bool) (v : List Char)
  | attrValueUq (t : TagAcc) (keep : Bool) (v : List Char)
  | afterAttrValueQ (t : TagAcc)
  | selfClosing (t : TagAcc)
  | bogusComment
  | markupDecl
  | markupDeclDash
  | commentStart
  | commentStartDash
  | comment
  | commentEndDash
  | commentEnd
  | commentEndBang
  deriving DecidableEq

/-- ASCII whitespace. -/
def isWs (c : Char) : Bool :=
  c == '\t' || c == '\n' || c == Char.ofNat 12 || c == '\r' || c == ' '

/-- ASCII letter. -/
def isAlpha (c : Char) : Bool :=
  (65 ≤ c.toNat && c.toNat ≤ 90) || (97 ≤ c.toNat && c.toNat ≤ 122)

/-- ASCII lower case. -/
def asciiLower (c : Char) : Char :=
  if 65 ≤ c.toNat ∧ c.toNat ≤ 90 then Char.ofNat (c.toNat + 32) else c

/-- The whitespace-separated tokens of a `class` value. -/
def classTokens : List Char → List (List Char)
  | [] => [[]]
  | c :: r =>
    if isWs c then [] :: classTokens r
    else
      match classTokens r with
      | [] => [[c]]
      | h :: t => (c :: h) :: t

/-- What emitting a tag adds to the number of card items: one for a start tag
`li` whose class list holds `card`. -/
def emitTag (t : TagAcc) : Nat :=
  match t.cls with
  | some v => if !t.isEnd && t.name == ['l', 'i'] && (classTokens v).contains ['c', 'a', 'r', 'd'] then 1 else 0
  | none => 0

/-- Whether an attribute whose name is complete is kept as the `class` of the
tag: its name is `class` and the tag has no `class` yet. -/
def keepsClass (t : TagAcc) (n : List Char) : Bool :=
  n == ['c', 'l', 'a', 's', 's'] && t.cls.isNone

/-- The tag once the value of the attribute just read is known. -/
def commitAttr (t : TagAcc) (keep : Bool) (v : List Char) : TagAcc :=
  if keep then { t with cls := some v } else t

/-- Data state. -/
def stepData (c : Char) : TokState × Nat :=
  if c == '<' then (.tagOpen, 0) else (.data, 0)

/-- Before attribute name state. -/
def stepBeforeAttrName (t : TagAcc) (c : Char) : TokState × Nat :=
  if isWs c then (.beforeAttrName t, 0)
  else if c == '/' then (.selfClosing t, 0)
  else if c == '>' then (.data, emitTag t)
  else if c == '=' then (.attrName t ['='], 0)
  else (.attrName t [asciiLower c], 0)

/-- After attribute name state. -/
def stepAfterAttrName (t : TagAcc) (keep : Bool) (c : Char) : TokState × Nat :=
  if isWs c then (.afterAttrName t keep, 0)
  else if c == '/' then (.selfClosing (commitAttr t keep []), 0)
  else if c == '=' then (.beforeAttrValue t keep, 0)
  else if c == '>' then (.data, emitTag (commitAttr t keep []))
  else (.attrName (commitAttr t keep []) [asciiLower c], 0)

/-- Comment state. -/
def stepComment (c : Char) : TokState × Nat :=
  if c == '-' then (.commentEndDash, 0) else (.comment, 0)

/-- One character consumed by the tokenizer: the next state and what the tag
emitted at this character, if any, adds to the number of card items. -/
def tokStep : TokState → Char → TokState × Nat
  | .data, c => stepData c
  | .tagOpen, c =>
    if c == '!' then (.markupDecl, 0)
    else if c == '/' then (.endTagOpen, 0)
    else if isAlpha c then (.tagName ⟨false, [asciiLower c], none⟩, 0)
    else if c == '?' then (.bogusComment, 0)
    else stepData c
  | .endTagOpen, c =>
    if isAlpha c then (.tagName ⟨true, [asciiLower c], none⟩, 0)
    else if c == '>' then (.data, 0)
    else (.bogusComment, 0)
  | .tagName t, c =>
    if isWs c then (.beforeAttrName t, 0)
    else if c == '/' then (.selfClosing t, 0)
    else if c == '>' then (.data, emitTag t)
    else (.tagName { t with name := t.name ++ [asciiLower c] }, 0)
  | .beforeAttrName t, c => stepBeforeAttrName t c
  | .attrName t n, c =>
    if isWs c || c == '/' || c == '>' then stepAfterAttrName t (keepsClass t n) c
    else if c == '=' then (.beforeAttrValue t (keepsClass t n), 0)
    else (.attrName t (n ++ [asciiLower c]), 0)
  | .afterAttrName t keep, c => stepAfterAttrName t keep c
  | .beforeAttrValue t keep, c =>
    if isWs c then (.beforeAttrValue t keep, 0)
    else if c == '"' then (.attrValueDq t keep [], 0)
    else if c == Char.ofNat 39 then (.attrValueSq t keep [], 0)
    else if c == '>' then (.data, emitTag (commitAttr t keep []))
    else (.attrValueUq t keep (if keep then [c] else []), 0)
  | .attrValueDq t keep v, c =>
    if c == '"' then (.afterAttrValueQ (commitAttr t keep v), 0)
    else (.attrValueDq t keep (if keep then v ++ [c] else v), 0)
  | .attrValueSq t keep v, c =>
    if c == Char.ofNat 39 then (.afterAttrValueQ (commitAttr t keep v), 0)
    else (.attrValueSq t keep (if keep then v ++ [c] else v), 0)
  | .attrValueUq t keep v, c =>
    if isWs c then (.beforeAttrName (commitAttr t keep v), 0)
    else if c == '>' then (.data, emitTag (commitAttr t keep v))
    else (.attrValueUq t keep (if keep then v ++ [c] else v), 0)
  | .afterAttrValueQ t, c => stepBeforeAttrName t c
  | .selfClosing t, c =>
    if c == '>' then (.data, emitTag t) else stepBeforeAttrName t c
  | .bogusComment, c => if c == '>' then (.data, 0) else (.bogusComment, 0)
  | .markupDecl, c =>
    if c == '-' then (.markupDeclDash, 0)
    else if c == '>' then (.data, 0)
    else (.bogusComment, 0)
  | .markupDeclDash, c =>
    if c == '-' then (.commentStart, 0)
    else if c == '>' then (.data, 0)
    else (.bogusComment, 0)
  | .commentStart, c =>
    if c == '-' then (.commentStartDash, 0)
    else if c == '>' then (.data, 0)
    else stepComment c
  | .commentStartDash, c =>
    if c == '-' then (.commentEnd, 0)
    else if c == '>' then (.data, 0)
    else stepComment c
  | .comment, c => stepComment c
  | .commentEndDash, c => if c == '-' then (.commentEnd, 0) else stepComment c
  | .commentEnd, c =>
    if c == '>' then (.data, 0)
    else if c == '!' then (.commentEndBang, 0)
    else if c == '-' then (.commentEnd, 0)
    else stepComment c
  | .commentEndBang, c =>
    if c == '-' then (.commentEndDash, 0)
    else if c == '>' then (.data, 0)
    else stepComment c

/-- The state of the tokenizer after the characters `cs`. -/
def tokState : TokState → List Char → TokState
  | s, [] => s
  | s, c :: r => tokState (tokStep s c).1 r

/-- The number of card items among the tags emitted while reading `cs`. -/
def tokCount : TokState → List Char → Nat
  | _, [] => 0
  | s, c :: r => (tokStep s c).2 + tokCount (tokStep s c).1 r

/-- The number of list items of class `card` in the document made from markup. -/
def renderedCards (html : String) : Nat := tokCount .data html.data

/-! ## The page -/

/-- Backend origin (line 2). -/
def API : String := "http://127.0.0.1:8000"

/-- Built-in `parts.join("")`: the texts one after the other. -/
def joinAll : List String → String
  | [] => ""
  | s :: r => s ++ joinAll r

/-- A date input: its `value` and its `min` attribute. -/
structure DateInput where
  value : String
  min : String

/-- A request handed to `fetch`.  `body` is the value given to `JSON.stringify`. -/
structure Request where
  method : String
  url : String
  headers : List (String × String)
  body : Option Json

/-- What the script does to the outside, in the order it does it. -/
inductive Event where
  | fetch (r : Request)
  | toast (msg : String)
  | showModal
  | closeModal
  | loadCars
  | navigate (href : String)

/-- An HTTP response: `Response.ok` and the completion of `Response.json()`. -/
structure HttpResponse where
  ok : Bool
  json : Except String Json

/-- The completion of the promise returned by `fetch`: a response, or a
rejection carrying the message of its error. -/
abbrev FetchResult := Except String HttpResponse

/-- Everything of the document and of the module the script reads or writes. -/
structure Page where
  /-- `localStorage`. -/
  storage : Storage
  /-- `let carsData` (line 142). -/
  carsData : List Json
  /-- `let activeCar` (line 143); `none` is `null`. -/
  activeCar : Option Json
  /-- The markup `grid.innerHTML`, as the script last assigned it. -/
  grid : String
  /-- `count.textContent`. -/
  countText : String
  /-- `hidden` of the element `empty`. -/
  emptyHidden : Bool
  /-- Whether the dialog `modal` is open. -/
  modalOpen : Bool
  /-- `carTitle.textContent`. -/
  carTitle : String
  /-- `authHint.hidden`. -/
  authHintHidden : Bool
  /-- The texts of the toasts appended to `toasts`, oldest first. -/
  toasts : List String
  /-- `value` of the four filter fields. -/
  category : String
  seats : String
  transmission : String
  maxPrice : String
  /-- The four date inputs. -/
  startDate : DateInput
  endDate : DateInput
  mStart : DateInput
  mEnd : DateInput
  /-- Effects so far, oldest first. -/
  log : List Event
  /-- Messages of the exceptions no handler caught, oldest first. -/
  uncaught : List String

/-- An exception leaves the running listener or rejects an unawaited promise. -/
def Page.throwUncaught (p : Page) (msg : String) : Page :=
  { p with uncaught := p.uncaught ++ [msg] }

/-- Script `toast(msg)` (lines 89-95); the timer that removes it is not modelled. -/
def toast (msg : String) (p : Page) : Page :=
  { p with toasts := p.toasts ++ [msg], log := p.log ++ [Event.toast msg] }

/-- Script `modal.showModal()`. -/
def showModal (p : Page) : Page :=
  { p with modalOpen := true, log := p.log ++ [Event.showModal] }

/-- Script `modal.close()`: nothing happens on a dialog that is not open. -/
def closeModal (p : Page) : Page :=
  if p.modalOpen then { p with modalOpen := false, log := p.log ++ [Event.closeModal] }
  else p

/-- Script `requireAuthOrRedirect(pendingCarId)` (lines 12-18): the result and the page. -/
def requireAuthOrRedirect (env : Env) (pendingCarId : String) (p : Page) : Bool × Page :=
  match getAuth env p.storage with
  | some _ => (true, p)
  | none =>
    let p := if pendingCarId ≠ "" then
        { p with storage := p.storage.setItem "pendingCarId" pendingCarId }
      else p
    (false, { p with log := p.log ++ [Event.navigate "login.html"] })

/-! ## Car listing -/

/-- One placeholder item of `skeletons` (lines 147-151). -/
def skeletonHtml : String :=
  "\n    <li class=\"card\" aria-busy=\"true\">\n" ++
  "      <div class=\"card__img\" style=\"background:#e9eef6\"></div>\n" ++
  "      <div class=\"card__body\"><div class=\"card__meta\">Loading…</div></div>\n" ++
  "      <div class=\"card__foot\"><span>—</span><span></span></div>\n" ++
  "    </li>\n  "

/-- Script `skeletons(n)` (lines 145-153). -/
def skeletons (n : Nat) (p : Page) : Page :=
  { p with grid := joinAll (List.replicate n skeletonHtml) }

/-- Placeholder photograph (line 157). -/
def placeholderPhoto : String :=
  "https://images.unsplash.com/photo-1549924231-f129b911e442?q=80&w=1600&auto=format&fit=crop"

/-- The texts `card` interpolates into its template, in the order of their
first use: the photograph, the fields of the record as `ToString` gives them,
and the formatted price. -/
structure CardTexts where
  photo : String
  brand : String
  model : String
  year : String
  category : String
  seats : String
  transmission : String
  fuel : String
  price : String
  id : String

/-- The property reads of `card(c)` (lines 156-172), or the `TypeError` of
reading a property of `null`. -/
def cardTexts (env : Env) (c : Json) : Except String CardTexts := do
  let photoUrl ← getProp env c "photo_url"
  let photo := if truthyVal photoUrl then valToString photoUrl else placeholderPhoto
  let brand ← getProp env c "brand"
  let model ← getProp env c "model"
  let year ← getProp env c "year"
  let category ← getProp env c "category"
  let seats ← getProp env c "seats"
  let transmission ← getProp env c "transmission"
  let fuel ← getProp env c "fuel_type"
  let price ← getProp env c "price_per_day"
  let id ← getProp env c "id"
  pure ⟨photo, valToString brand, valToString model, valToString year, valToString category,
    valToString seats, valToString transmission, valToString fuel, env.priceText price,
    valToString id⟩

/-- The template literal of `card` (lines 158-174) filled with the texts; they
are inserted as they are, nothing is escaped. -/
def cardMarkup (t : CardTexts) : String :=
  "\n  <li class=\"card\">\n    <img class=\"card__img\" src=\"" ++ t.photo ++ "\" alt=\""
    ++ t.brand ++ " " ++ t.model
    ++ "\" loading=\"lazy\" />\n    <div class=\"card__body\">\n      <h3>"
    ++ t.brand ++ " " ++ t.model ++ " • " ++ t.year
    ++ "</h3>\n      <div class=\"card__meta\">\n        <span class=\"badge\">Category: "
    ++ t.category
    ++ "</span>\n        <span class=\"badge\">Seats: " ++ t.seats
    ++ "</span>\n        <span class=\"badge\">Trans: " ++ t.transmission
    ++ "</span>\n        <span class=\"badge\">Fuel: " ++ t.fuel
    ++ "</span>\n      </div>\n    </div>\n    <div class=\"card__foot\">\n      <div><strong class=\"price\">"
    ++ t.price
    ++ "</strong> SAR / day</div>\n      <button class=\"btn btn--primary small\" data-reserve data-id=\""
    ++ t.id ++ "\" data-title=\"" ++ t.brand ++ " " ++ t.model
    ++ "\">Reserve</button>\n    </div>\n  </li>"

/-- Script `card(c)` (lines 155-175): the markup of one list item, or the
`TypeError` of reading a property of `null`. -/
def card (env : Env) (c : Json) : Except String String :=
  match cardTexts env c with
  | .ok t => .ok (cardMarkup t)
  | .error e => .error e

/-- Script `cars.map(card)`: stops at the first element on which `card` throws. -/
def renderCards (env : Env) : List Json → Except String (List String)
  | [] => .ok []
  | c :: r =>
    match card env c with
    | .error e => .error e
    | .ok h =>
      match renderCards env r with
      | .error e => .error e
      | .ok hs => .ok (h :: hs)

/-- Script `carsData.find(c => c.id === id)`: the first match, `undefined` (`none`)
when there is none, or the `TypeError` of reading `id` of `null`. -/
def findCar (env : Env) (id : String) : List Json → Except String (Option Json)
  | [] => .ok none
  | c :: r =>
    match getProp env c "id" with
    | .error e => .error e
    | .ok v => if strictEqStr v id then .ok (some c) else findCar env id r

/-- The parameters `loadCars` builds from the filter fields (lines 179-188). -/
def carsParams (p : Page) : URLSearchParams :=
  let params := URLSearchParams.empty
  let params := if p.category ≠ "" then params.set "category" p.category else params
  let params := if p.seats ≠ "" then params.set "seats" p.seats else params
  let params := if p.transmission ≠ "" then params.set "transmission" p.transmission else params
  let params := if p.maxPrice ≠ "" then params.set "max_price" p.maxPrice else params
  params

/-- The query string `loadCars` puts after `/cars?` (line 190). -/
def carsQuery (p : Page) : String := (carsParams p).toString

/-- Script `openReserveModal(car)` (lines 247-252). -/
def openReserveModal (env : Env) (car : Json) (p : Page) : Page :=
  let p := { p with activeCar := some car }
  match getProp env car "brand" with
  | .error e => p.throwUncaught e
  | .ok brand =>
    match getProp env car "model" with
    | .error e => p.throwUncaught e
    | .ok model =>
      let p := { p with carTitle := valToString brand ++ " " ++ valToString model }
      let p := { p with authHintHidden := (getAuth env p.storage).isSome }
      showModal p

/-- Script `loadCars()` up to its first `await` (lines 178-190): the placeholders are
shown and the request is sent. -/
def loadCarsStart (p : Page) : Page :=
  let p := { p with log := p.log ++ [Event.loadCars] }
  let p := skeletons 6 p
  { p with log := p.log ++ [Event.fetch ⟨"GET", API ++ "/cars?" ++ carsQuery p, [], none⟩] }

/-- The branch for an empty or non-array result (lines 194-198). -/
def showEmpty (p : Page) : Page :=
  { p with carsData := [], grid := "", countText := "", emptyHidden := false }

/-- The text of the count (line 204). -/
def countLabel (n : Nat) : String :=
  toString n ++ " car" ++ (if n > 1 then "s" else "") ++ " found"

/-- Lines 206-213: reopen the reservation that was pending across the login. -/
def resumePending (env : Env) (p : Page) : Page :=
  let pending := p.storage.getItem "pendingCarId"
  let a := getAuth env p.storage
  match pending, a with
  | some id, some _ =>
    if id ≠ "" then
      let p := { p with storage := p.storage.removeItem "pendingCarId" }
      match findCar env id p.carsData with
      | .error e => p.throwUncaught e
      | .ok none => p
      | .ok (some car) => openReserveModal env car p
    else p
  | _, _ => p

/-- Script `loadCars()` from the completion of `fetch` on (lines 190-213). -/
def loadCarsFinish (env : Env) (net : FetchResult) (p : Page) : Page :=
  match net with
  | .error e => p.throwUncaught e
  | .ok res =>
    match res.json with
    | .error e => p.throwUncaught e
    | .ok cars =>
      match arrayItems cars with
      | none => showEmpty p
      | some [] => showEmpty p
      | some (c :: r) =>
        let p := { p with carsData := c :: r }
        let p := { p with emptyHidden := true }
        match renderCards env (c :: r) with
        | .error e => p.throwUncaught e
        | .ok cards =>
          let p := { p with grid := joinAll cards }
          let p := { p with countText := countLabel (c :: r).length }
          resumePending env p

/-- One run of `loadCars()` that nothing interleaves with. -/
def loadCars (env : Env) (net : FetchResult) (p : Page) : Page :=
  loadCarsFinish env net (loadCarsStart p)

/-- The listener of `reset` (lines 218-224), up to the first `await` of `loadCars`. -/
def resetFilters (p : Page) : Page :=
  loadCarsStart { p with category := "", seats := "", transmission := "", maxPrice := "" }

/-- The `submit` listener of the search bar (lines 228-234), up to the first
`await` of `loadCars`: the modal dates are preloaded from the search bar. -/
def searchSubmit (p : Page) : Page :=
  let p := { p with mStart := { p.mStart with value := sanitizeDate p.startDate.value } }
  let p := { p with mEnd := { p.mEnd with value := sanitizeDate p.endDate.value } }
  loadCarsStart p

/-- The listener of the grid (lines 237-244) for a click on the reserve button
carrying `data-id = carId`. -/
def reserveClick (env : Env) (carId : String) (p : Page) : Page :=
  match requireAuthOrRedirect env carId p with
  | (false, p) => p
  | (true, p) =>
    match findCar env carId p.carsData with
    | .error e => p.throwUncaught e
    | .ok none => p
    | .ok (some car) => openReserveModal env car p

/-! ## Modal flow -/

/-- The object given to `JSON.stringify` (lines 269-273): a property whose
value is `undefined` is left out. -/
def reserveBody (carId : JsVal) (start stop : String) : Json :=
  .obj ((match carId with
      | some v => [("car_id", v)]
      | none => []) ++ [("start_date", .str start), ("end_date", .str stop)])

/-- The request of line 263. -/
def reserveRequest (token : String) (carId : JsVal) (start stop : String) : Request :=
  ⟨"POST", API ++ "/reservations/create_auth",
    [("Content-Type", "application/json"), ("Authorization", "Bearer " ++ token)],
    some (reserveBody carId start stop)⟩

/-- The `catch` clause of line 280-282. -/
def reserveFailed (msg : String) (p : Page) : Page :=
  toast (if msg ≠ "" then msg else "Reservation failed") p

/-- The listener of `btnConfirm` (lines 254-283), run without another listener
in between.  `net` is the completion of the `fetch` of line 263, used only when
that line is reached; the final `loadCars()` runs up to its first `await`. -/
def confirm (env : Env) (net : FetchResult) (p : Page) : Page :=
  match getAuth env p.storage with
  | none => { p with authHintHidden := false }
  | some a =>
    let start := p.mStart.value
    let stop := p.mEnd.value
    if start = "" ∨ stop = "" then toast "Pick start/end dates" p
    else
      match p.activeCar with
      | none => reserveFailed (env.typeErrorMsg "id") p
      | some car =>
        match getProp env car "id" with
        | .error e => reserveFailed e p
        | .ok carId =>
          let p := { p with log := p.log ++ [Event.fetch (reserveRequest a.token carId start stop)] }
          match net with
          | .error e => reserveFailed e p
          | .ok r =>
            let data : Json := match r.json with
              | .ok d => d
              | .error _ => .obj []
            if !r.ok then
              match getProp env data "detail" with
              | .error e => reserveFailed e p
              | .ok detail =>
                reserveFailed (if truthyVal detail then valToString detail else "Failed to reserve") p
            else
              let p := toast "Reservation confirmed ✔" p
              let p := closeModal p
              loadCarsStart p

/-- The listener of `btnCancel` (line 285). -/
def cancel (p : Page) : Page := closeModal p

/-- The listener of `btnClose` (line 286). -/
def close (p : Page) : Page := closeModal p

/-- The requests handed to `fetch` so far, oldest first. -/
def sentRequests (p : Page) : List Request :=
  p.log.filterMap (fun e => match e with
    | .fetch r => some r
    | _ => none)

/-- How many times `loadCars` has been invoked so far. -/
def loadCarsCalls (p : Page) : Nat :=
  (p.log.filter (fun e => match e with
    | .loadCars => true
    | _ => false)).length

/-! ## Date constraints -/

/-- The start inputs the change listener is attached to (line 44). -/
inductive StartId where
  | startDate
  | mStart

/-- The element `el` of the listener. -/
def Page.startInput (p : Page) : StartId → DateInput
  | .startDate => p.startDate
  | .mStart => p.mStart

/-- The paired end input `endEl` (lines 49-50). -/
def Page.endInput (p : Page) : StartId → DateInput
  | .startDate => p.endDate
  | .mStart => p.mEnd

/-- Write a start input back. -/
def Page.setStartInput (p : Page) (id : StartId) (el : DateInput) : Page :=
  match id with
  | .startDate => { p with startDate := el }
  | .mStart => { p with mStart := el }

/-- Write the paired end input back. -/
def Page.setEndInput (p : Page) (id : StartId) (el : DateInput) : Page :=
  match id with
  | .startDate => { p with endDate := el }
  | .mStart => { p with mEnd := el }

/-- Script `setDateMins()` (lines 27-39) at the instant `now`. -/
def setDateMins (tz : TimeZone) (now : Int) (p : Page) : Page :=
  let min := todayISO tz now
  { p with
    startDate := { p.startDate with min := min }
    endDate := { p.endDate with min := min }
    mStart := { p.mStart with min := min }
    mEnd := { p.mEnd with min := min } }

/-- The `change` listener of a start input (lines 47-60) at the instant `now`. -/
def onStartChange (tz : TimeZone) (now : Int) (id : StartId) (p : Page) : Page :=
  let start := (p.startInput id).value
  let endEl := p.endInput id
  let endEl := { endEl with min := if start ≠ "" then start else todayISO tz now }
  let p := p.setEndInput id endEl
  if endEl.value ≠ "" ∧ jsStrLe endEl.value endEl.min = true then
    let d := dateParse (if start ≠ "" then start else todayISO tz now)
    let d := setDate tz d ((getDate tz d).map (fun n => n + 1))
    match toISOString d with
    | none => p.throwUncaught "Invalid time value"
    | some iso => p.setEndInput id { endEl with value := sanitizeDate (sliceTo 10 iso) }
  else p

/-- The user picks `v` in a start input: the value is set and `change` fires. -/
def pickStart (tz : TimeZone) (now : Int) (id : StartId) (v : String) (p : Page) : Page :=
  onStartChange tz now id (p.setStartInput id { p.startInput id with value := v })

/-- The user picks `v` in an end input; no listener is attached to it. -/
def pickEnd (id : StartId) (v : String) (p : Page) : Page :=
  p.setEndInput id { p.endInput id with value := v }

/-- A calendar date written `YYYY-MM-DD` with a year from 1 to 9999. -/
def isDate4 (s : String) : Bool :=
  match parseDate4 s with
  | some (y, _, _) => decide (1 ≤ y)
  | none => false

/-- The pages reached from page load by start-date changes, by end-date
selections that respect the current minimum of the end input, and by anything
else that leaves the four date inputs alone. -/
inductive Reachable (tz : TimeZone) : Page → Prop where
  | load (p : Page) (now : Int) :
      p.startDate.value = "" → p.endDate.value = "" → p.mStart.value = "" →
      p.mEnd.value = "" → Reachable tz (setDateMins tz now p)
  | pickStart (p : Page) (now : Int) (id : StartId) (v : String) :
      Reachable tz p → (v = "" ∨ isDate4 v = true) → Reachable tz (pickStart tz now id v p)
  | pickEnd (p : Page) (id : StartId) (v : String) :
      Reachable tz p →
      (v = "" ∨ (isDate4 v = true ∧ jsStrLe (p.endInput id).min v = true)) →
      Reachable tz (pickEnd id v p)
  | other (p q : Page) :
      Reachable tz p → q.startDate = p.startDate → q.endDate = p.endDate →
      q.mStart = p.mStart → q.mEnd = p.mEnd → Reachable tz q

/-- A time zone whose offset stays within a day of UTC, and in which the offset
used to read the wall-clock time one day after an instant is within a day of
the offset in force at that instant, as in every zone of the tz database. -/
def TimeZone.Bounded (tz : TimeZone) : Prop :=
  ∀ t, (tz.offsetAtUTC t).natAbs ≤ 86400000
    ∧ (tz.offsetAtLocal (localTime tz t + msPerDay)).natAbs ≤ 86400000
    ∧ (tz.offsetAtUTC t - tz.offsetAtLocal (localTime tz t + msPerDay)).natAbs ≤ 86400000

/-! ## Auxiliary notions of the statements -/

/-- The four candidate parameters in the order `loadCars` considers them. -/
def filterFields (p : Page) : List (String × String) :=
  [("category", p.category), ("seats", p.seats),
   ("transmission", p.transmission), ("max_price", p.maxPrice)]

/-- Reading `cs` from state `s` ends in state `s2` and emits `n` card items. -/
@[reducible]
def Reads (s : TokState) (cs : List Char) (s2 : TokState) (n : Nat) : Prop :=
  tokState s cs = s2 ∧ tokCount s cs = n

/-- A text that holds neither `<` nor a double quote: inserted into markup, in
text or inside a double-quoted attribute value, it opens no tag and closes no
attribute. -/
def safeText (s : String) : Bool := s.data.all (fun c => c != '<' && c != '"')

/-- A card whose interpolated texts are all free of markup. -/
def CardTexts.markupFree (t : CardTexts) : Bool :=
  safeText t.photo && safeText t.brand && safeText t.model && safeText t.year
    && safeText t.category && safeText t.seats && safeText t.transmission
    && safeText t.fuel && safeText t.price && safeText t.id

/-- The number `YYYYMMDD` of a date, month counted from 0. -/
def dateKey (y m d : Int) : Int := y * 10000 + (m + 1) * 100 + d

/-- The characters `YYYY-MM-DD` of a date, month counted from 1. -/
def dateChars (y m d : Nat) : List Char := pad4 y ++ '-' :: pad2 m ++ '-' :: pad2 d

/-- What the proof of the ordering carries along for one start/end pair: once
a start date is chosen, it is a date, it is the minimum of the end input, and
a chosen end date is not before it. -/
def PairOk (p : Page) (id : StartId) : Prop :=
  (p.startInput id).value ≠ "" →
    isDate4 (p.startInput id).value = true
    ∧ (p.endInput id).min = (p.startInput id).value
    ∧ ((p.endInput id).value ≠ "" →
        jsStrLe (p.startInput id).value (p.endInput id).value = true)

/-! ## Concrete values for the examples -/

/-- The answers of `JSON.parse` on the texts the examples store; no example
parses any other text. -/
def sampleParse : String → Except String Json
  | "null" => .ok .null
  | "true" => .ok (.bool true)
  | "\x7b\"email\":\"a@b.c\"\x7d" => .ok (.obj [("email", .str "a@b.c")])
  | _ => .error "Unexpected token"

/-- A platform for the examples: the table above for `JSON.parse`, the wording
V8 gives the `TypeError`, and `toLocaleString` on the prices the examples use. -/
def sampleEnv : Env where
  jsonParse := sampleParse
  typeErrorMsg := fun name => "Cannot read properties of null (reading \x27" ++ name ++ "\x27)"
  priceText := fun v =>
    match v with
    | some (.num "150") => "150"
    | _ => "NaN"

/-- The page right after the script has run on a fresh document: nothing
stored, nothing loaded, all fields blank, the dialog closed. -/
def blankPage : Page where
  storage := fun _ => none
  carsData := []
  activeCar := none
  grid := ""
  countText := ""
  emptyHidden := true
  modalOpen := false
  carTitle := ""
  authHintHidden := true
  toasts := []
  category := ""
  seats := ""
  transmission := ""
  maxPrice := ""
  startDate := ⟨"", ""⟩
  endDate := ⟨"", ""⟩
  mStart := ⟨"", ""⟩
  mEnd := ⟨"", ""⟩
  log := []
  uncaught := []

/-- A store holding a session: a token and a serialized user record. -/
def sessionStore : Storage :=
  fun k => if k = "token" then some "t0k3n"
    else if k = "user" then some "\x7b\"email\":\"a@b.c\"\x7d"
    else none

/-- A listing record. -/
def sampleCar : Json :=
  .obj [("id", .str "c1"), ("brand", .str "Toyota"), ("model", .str "Camry"),
    ("year", .num "2023"), ("category", .str "Sedan"), ("seats", .num "5"),
    ("transmission", .str "Auto"), ("fuel_type", .str "Gas"), ("price_per_day", .num "150")]

/-- A page with a session, the dialog open on `sampleCar` and both dates filled. -/
def draftPage : Page :=
  { blankPage with
    storage := sessionStore
    carsData := [sampleCar]
    activeCar := some sampleCar
    modalOpen := true
    mStart := ⟨"2025-06-01", "2025-05-20"⟩
    mEnd := ⟨"2025-06-03", "2025-06-01"⟩ }

/-- A page reloaded after the login redirect: a session and a pending listing id. -/
def pendingPage : Page :=
  { blankPage with storage := sessionStore.setItem "pendingCarId" "c1" }

/-- The zone UTC. -/
def utcZone : TimeZone where
  offsetAtUTC := fun _ => 0
  offsetAtLocal := fun _ => 0

/-- Central European time in 2025: UTC+1, and UTC+2 from 30 March 01:00 UTC to
26 October 01:00 UTC.  A wall-clock time is read with the summer offset from
03:00 on 30 March to 03:00 on 26 October (a skipped or repeated hour is read
with the offset in force before the change). -/
def europeBerlin2025 : TimeZone where
  offsetAtUTC := fun t =>
    if 1743296400000 ≤ t ∧ t < 1761440400000 then 7200000 else 3600000
  offsetAtLocal := fun t =>
    if 1743303600000 ≤ t ∧ t < 1761447600000 then 7200000 else 3600000

/-- The search bar on 20 March 2025 with an end date already chosen. -/
def searchPage : Page :=
  { blankPage with
    startDate := ⟨"", "2025-03-20"⟩
    endDate := ⟨"2025-03-25", "2025-03-20"⟩ }

/-- The page after `setDateMins` has run at noon UTC on 20 March 2025. -/
def loadedPage : Page := setDateMins utcZone 1742472000000 blankPage

/-- In the modal the user picks 10 April 2025 as start date, then the same day
as end date, which the minimum of the end input allows; a session is present
and the modal is open on `sampleCar`. -/
def sameDayPage : Page :=
  { pickEnd .mStart "2025-04-10"
      (pickStart utcZone 1742472000000 .mStart "2025-04-10" loadedPage) with
    storage := sessionStore
    carsData := [sampleCar]
    activeCar := some sampleCar
    modalOpen := true }

/-- A second listing record. -/
def sampleCar2 : Json :=
  .obj [("id", .str "c2"), ("brand", .str "Kia"), ("model", .str "Sportage"),
    ("year", .num "2022"), ("category", .str "SUV"), ("seats", .num "5"),
    ("transmission", .str "Auto"), ("fuel_type", .str "Gas"), ("price_per_day", .num "150")]

/-- A listing record whose brand holds markup. -/
def markupCar : Json :=
  .obj [("id", .str "c3"), ("brand", .str "A</li><li class=\"card\">B"),
    ("model", .str "Camry"), ("year", .num "2023"), ("category", .str "Sedan"),
    ("seats", .num "5"), ("transmission", .str "Auto"), ("fuel_type", .str "Gas"),
    ("price_per_day", .num "150")]

/-- A page that holds a listing of one car from an earlier load. -/
def listedPage : Page :=
  { blankPage with
    carsData := [sampleCar]
    grid := "<li class=\"card\">earlier</li>"
    countText := "1 car found" }

/-! ## Query string -/

theorem carsParams_entries (p : Page) :
    (carsParams p).entries = (filterFields p).filter (fun e => e.2 != "") := by
  by_cases h1 : p.category = "" <;> by_cases h2 : p.seats = "" <;>
    by_cases h3 : p.transmission = "" <;> by_cases h4 : p.maxPrice = "" <;>
    simp [carsParams, filterFields, URLSearchParams.set, URLSearchParams.empty, h1, h2, h3, h4]

theorem hexVal_hexDigit : ∀ n, n < 16 → hexVal (hexDigit n) = some n := by decide

set_option maxRecDepth 100000 in
theorem encodeByte_clean : ∀ b, b < 256 →
    ('&' ∉ encodeByte b) ∧ ('=' ∉ encodeByte b) := by decide

set_option maxRecDepth 100000 in
theorem unreserved_char : ∀ b, b < 256 → isUnreserved b = true →
    Char.ofNat b ≠ '%' ∧ Char.ofNat b ≠ '+' ∧ utf8Bytes (Char.ofNat b) = [b] := by decide

theorem percentDecode_plain (c : Char) (rest : List Char) (h : c ≠ '%') :
    percentDecode (c :: rest) = plainBytes c ++ percentDecode rest := by
  match rest with
  | [] => simp [percentDecode]
  | [a] => simp [percentDecode]
  | a :: b :: r => simp [percentDecode, h]

theorem percentDecode_encodeByte (b : Nat) (hb : b < 256) (rest : List Char) :
    percentDecode (encodeByte b ++ rest) = b :: percentDecode rest := by
  unfold encodeByte
  by_cases h32 : b = 0x20
  · subst h32
    simp only [if_true, List.singleton_append]
    rw [percentDecode_plain _ _ (by decide)]
    simp [plainBytes]
  · by_cases hu : isUnreserved b = true
    · obtain ⟨h1, h2, h3⟩ := unreserved_char b hb hu
      simp only [h32, hu, if_false, if_true, List.singleton_append]
      rw [percentDecode_plain _ _ h1]
      simp [plainBytes, h2, h3]
    · have hx := hexVal_hexDigit (b / 16) (by omega)
      have hy := hexVal_hexDigit (b % 16) (by omega)
      simp only [h32, hu, if_false, List.cons_append, List.nil_append]
      simp only [percentDecode, hx, hy, if_true]
      congr 1
      omega

theorem percentDecode_encodeBytes (bs : List Nat) (hbs : ∀ b ∈ bs, b < 256) (rest : List Char) :
    percentDecode (encodeBytes bs ++ rest) = bs ++ percentDecode rest := by
  induction bs with
  | nil => simp [encodeBytes]
  | cons b r ih =>
    have hr : ∀ x ∈ r, x < 256 := fun x hx => hbs x (List.mem_cons_of_mem _ hx)
    have hb : b < 256 := hbs b (List.mem_cons_self _ _)
    have : encodeBytes (b :: r) ++ rest = encodeByte b ++ (encodeBytes r ++ rest) := by
      simp [encodeBytes]
    rw [this, percentDecode_encodeByte b hb, ih hr]
    rfl

theorem utf8Bytes_lt (c : Char) : ∀ b ∈ utf8Bytes c, b < 256 := by
  have hc : c.toNat < 0x110000 := by
    have := c.valid
    simp only [Char.toNat]
    rcases c.valid with h | h
    · exact lt_trans h (by decide)
    · exact h.2
  intro b hb
  unfold utf8Bytes at hb
  simp only at hb
  split_ifs at hb <;> simp at hb <;> omega

theorem utf8_lt (s : String) : ∀ b ∈ utf8 s, b < 256 := by
  intro b hb
  simp only [utf8, List.mem_flatMap] at hb
  obtain ⟨c, _, hc⟩ := hb
  exact utf8Bytes_lt c b hc

theorem percentDecode_urlencode (s : String) : percentDecode (urlencode s) = utf8 s := by
  have := percentDecode_encodeBytes (utf8 s) (utf8_lt s) []
  simpa [urlencode, percentDecode] using this

theorem encodeBytes_clean (bs : List Nat) (hbs : ∀ b ∈ bs, b < 256) :
    ('&' ∉ encodeBytes bs) ∧ ('=' ∉ encodeBytes bs) := by
  induction bs with
  | nil => simp [encodeBytes]
  | cons b r ih =>
    have hr : ∀ x ∈ r, x < 256 := fun x hx => hbs x (List.mem_cons_of_mem _ hx)
    have hb := encodeByte_clean b (hbs b (List.mem_cons_self _ _))
    have ih2 := ih hr
    simp only [encodeBytes, List.flatMap_cons, List.mem_append, not_or] at ih2 ⊢
    exact ⟨⟨hb.1, ih2.1⟩, ⟨hb.2, ih2.2⟩⟩

theorem urlencode_clean (s : String) : ('&' ∉ urlencode s) ∧ ('=' ∉ urlencode s) :=
  encodeBytes_clean (utf8 s) (utf8_lt s)

theorem splitEq_append (n v : List Char) (hn : '=' ∉ n) :
    splitEq (n ++ '=' :: v) = (n, v) := by
  induction n with
  | nil => simp [splitEq]
  | cons c r ih =>
    have hc : c ≠ '=' := fun h => hn (by simp [h])
    have hr : '=' ∉ r := fun h => hn (List.mem_cons_of_mem _ h)
    simp [splitEq, hc, ih hr]

theorem splitAmp_ne_nil (cs : List Char) : splitAmp cs ≠ [] := by
  cases cs with
  | nil => simp [splitAmp]
  | cons c r =>
    simp only [splitAmp]
    split_ifs
    · simp
    · split <;> simp

theorem splitAmp_clean (seg : List Char) (h : '&' ∉ seg) : splitAmp seg = [seg] := by
  induction seg with
  | nil => simp [splitAmp]
  | cons c r ih =>
    have hc : c ≠ '&' := fun e => h (by simp [e])
    have hr : '&' ∉ r := fun e => h (List.mem_cons_of_mem _ e)
    simp [splitAmp, hc, ih hr]

theorem splitAmp_append (seg rest : List Char) (h : '&' ∉ seg) :
    splitAmp (seg ++ '&' :: rest) = seg :: splitAmp rest := by
  induction seg with
  | nil => simp [splitAmp]
  | cons c r ih =>
    have hc : c ≠ '&' := fun e => h (by simp [e])
    have hr : '&' ∉ r := fun e => h (List.mem_cons_of_mem _ e)
    simp [splitAmp, hc, ih hr]

theorem splitAmp_joinAmp (segs : List (List Char)) (h : ∀ seg ∈ segs, '&' ∉ seg)
    (hne : segs ≠ []) : splitAmp (joinAmp segs) = segs := by
  induction segs with
  | nil => exact absurd rfl hne
  | cons x r ih =>
    have hx : '&' ∉ x := h x (List.mem_cons_self _ _)
    cases r with
    | nil => simpa [joinAmp] using splitAmp_clean x hx
    | cons y r2 =>
      have hr : ∀ seg ∈ y :: r2, '&' ∉ seg := fun s hs => h s (List.mem_cons_of_mem _ hs)
      simp only [joinAmp]
      rw [splitAmp_append x _ hx, ih hr (by simp)]

theorem encodePair_clean (e : String × String) : '&' ∉ encodePair e := by
  simp only [encodePair, List.mem_append, List.mem_cons, not_or]
  exact ⟨(urlencode_clean e.1).1, by decide, (urlencode_clean e.2).1⟩

theorem parseQuery_toString (ps : URLSearchParams) :
    parseQuery ps.toString = ps.entries.map (fun e => (utf8 e.1, utf8 e.2)) := by
  unfold parseQuery URLSearchParams.toString
  simp only
  by_cases hne : ps.entries = []
  · simp [hne, joinAmp, splitAmp]
  · have h1 : ∀ seg ∈ ps.entries.map encodePair, '&' ∉ seg := by
      intro seg hs
      obtain ⟨e, _, rfl⟩ := List.mem_map.1 hs
      exact encodePair_clean e
    rw [splitAmp_joinAmp _ h1 (by simpa using hne)]
    have h2 : (ps.entries.map encodePair).filter (fun seg => !seg.isEmpty)
        = ps.entries.map encodePair := by
      apply List.filter_eq_self.2
      intro seg hs
      obtain ⟨e, _, rfl⟩ := List.mem_map.1 hs
      simp [encodePair]
    rw [h2, List.map_map]
    apply List.map_congr_left
    intro e _
    simp only [Function.comp, encodePair]
    rw [splitEq_append _ _ (urlencode_clean e.1).2]
    simp [percentDecode_urlencode]

/-- C1: the parameters `loadCars` sets are exactly those of category, seats,
transmission, max_price whose field is non-empty, each once, with the value of
the field and in that order; the request goes to `/cars?` followed by their
serialization, and parsing that query string gives back exactly these names
and values (as UTF-8 bytes) and nothing else.  Category SUV with seats 5 gives
`category=SUV&seats=5`; four empty fields give the empty query. -/
theorem loadCars_query_parameters (p : Page) :
    (carsParams p).entries = (filterFields p).filter (fun e => e.2 != "")
    ∧ parseQuery (carsQuery p)
        = ((filterFields p).filter (fun e => e.2 != "")).map (fun e => (utf8 e.1, utf8 e.2))
    ∧ (loadCarsStart p).log
        = p.log ++ [Event.loadCars, Event.fetch ⟨"GET", API ++ "/cars?" ++ carsQuery p, [], none⟩]
    ∧ carsQuery { blankPage with category := "SUV", seats := "5" } = "category=SUV&seats=5"
    ∧ carsQuery blankPage = "" := by
  refine ⟨carsParams_entries p, ?_, ?_, by decide, by decide⟩
  · rw [carsQuery, parseQuery_toString, carsParams_entries]
  · simp [loadCarsStart, skeletons, carsQuery, carsParams]

/-! ## Listing load -/

theorem tokState_append (s : TokState) (a b : List Char) :
    tokState s (a ++ b) = tokState (tokState s a) b := by
  induction a generalizing s with
  | nil => rfl
  | cons c r ih =>
    show tokState (tokStep s c).1 (r ++ b) = tokState (tokState (tokStep s c).1 r) b
    exact ih _

theorem tokCount_append (s : TokState) (a b : List Char) :
    tokCount s (a ++ b) = tokCount s a + tokCount (tokState s a) b := by
  induction a generalizing s with
  | nil => simp [tokState, tokCount]
  | cons c r ih =>
    show (tokStep s c).2 + tokCount (tokStep s c).1 (r ++ b)
      = (tokStep s c).2 + tokCount (tokStep s c).1 r + tokCount (tokState (tokStep s c).1 r) b
    rw [ih, Nat.add_assoc]

theorem Reads.append {s s1 s2 : TokState} {a b : List Char} {n m : Nat}
    (h1 : Reads s a s1 n) (h2 : Reads s1 b s2 m) : Reads s (a ++ b) s2 (n + m) := by
  obtain ⟨e1, c1⟩ := h1
  obtain ⟨e2, c2⟩ := h2
  exact ⟨by rw [tokState_append, e1, e2], by rw [tokCount_append, e1, c1, c2]⟩

/-- In text, characters other than `<` open no tag. -/
theorem reads_text (cs : List Char) (h : cs.all (fun c => c != '<' && c != '"') = true) :
    Reads .data cs .data 0 := by
  induction cs with
  | nil => exact ⟨rfl, rfl⟩
  | cons c r ih =>
    simp only [List.all_cons, Bool.and_eq_true, bne_iff_ne, ne_eq] at h
    obtain ⟨⟨h1, _⟩, h2⟩ := h
    have hs : tokStep .data c = (.data, 0) := by
      simp [tokStep, stepData, h1]
    obtain ⟨e, k⟩ := ih (by simpa using h2)
    exact ⟨by simp only [tokState, hs, e], by simp only [tokCount, hs, k]⟩

/-- Inside a double-quoted value of an attribute other than `class`,
characters other than the double quote leave the tokenizer where it is. -/
theorem reads_value (t : TagAcc) (cs : List Char)
    (h : cs.all (fun c => c != '<' && c != '"') = true) :
    Reads (.attrValueDq t false []) cs (.attrValueDq t false []) 0 := by
  induction cs with
  | nil => exact ⟨rfl, rfl⟩
  | cons c r ih =>
    simp only [List.all_cons, Bool.and_eq_true, bne_iff_ne, ne_eq] at h
    obtain ⟨⟨_, h1⟩, h2⟩ := h
    have hs : tokStep (.attrValueDq t false []) c = (.attrValueDq t false [], 0) := by
      simp [tokStep, h1]
    obtain ⟨e, k⟩ := ih (by simpa using h2)
    exact ⟨by simp only [tokState, hs, e], by simp only [tokCount, hs, k]⟩

theorem cardMarkup_data (t : CardTexts) :
    (cardMarkup t).data =
      "\n  <li class=\"card\">\n    <img class=\"card__img\" src=\"".data ++ (t.photo.data ++
      ("\" alt=\"".data ++ (t.brand.data ++ (" ".data ++ (t.model.data ++
      ("\" loading=\"lazy\" />\n    <div class=\"card__body\">\n      <h3>".data ++
      (t.brand.data ++ (" ".data ++ (t.model.data ++ (" • ".data ++ (t.year.data ++
      ("</h3>\n      <div class=\"card__meta\">\n        <span class=\"badge\">Category: ".data ++
      (t.category.data ++
      ("</span>\n        <span class=\"badge\">Seats: ".data ++ (t.seats.data ++
      ("</span>\n        <span class=\"badge\">Trans: ".data ++ (t.transmission.data ++
      ("</span>\n        <span class=\"badge\">Fuel: ".data ++ (t.fuel.data ++
      ("</span>\n      </div>\n    </div>\n    <div class=\"card__foot\">\n      <div><strong class=\"price\">".data ++
      (t.price.data ++
      ("</strong> SAR / day</div>\n      <button class=\"btn btn--primary small\" data-reserve data-id=\"".data ++
      (t.id.data ++ ("\" data-title=\"".data ++ (t.brand.data ++ (" ".data ++ (t.model.data ++
      "\">Reserve</button>\n    </div>\n  </li>".data))))))))))))))))))))))))))) := by
  simp only [cardMarkup, String.data_append, List.append_assoc]


set_option maxRecDepth 100000 in
/-- A card whose texts hold no markup is read from text back to text and
makes exactly one card item. -/
theorem cardMarkup_reads (t : CardTexts) (h : t.markupFree = true) :
    Reads .data (cardMarkup t).data .data 1 := by
  simp only [CardTexts.markupFree, Bool.and_eq_true] at h
  obtain ⟨⟨⟨⟨⟨⟨⟨⟨⟨hphoto, hbrand⟩, hmodel⟩, hyear⟩, hcat⟩, hseats⟩, htrans⟩, hfuel⟩, hprice⟩, hid⟩ := h
  have l0 : Reads .data "\n  <li class=\"card\">\n    <img class=\"card__img\" src=\"".data
      (.attrValueDq ⟨false, ['i', 'm', 'g'], some "card__img".data⟩ false []) 1 := by decide
  have l1 : Reads (.attrValueDq ⟨false, ['i', 'm', 'g'], some "card__img".data⟩ false [])
      "\" alt=\"".data
      (.attrValueDq ⟨false, ['i', 'm', 'g'], some "card__img".data⟩ false []) 0 := by decide
  have l2 : Reads (.attrValueDq ⟨false, ['i', 'm', 'g'], some "card__img".data⟩ false [])
      "\" loading=\"lazy\" />\n    <div class=\"card__body\">\n      <h3>".data .data 0 := by
    decide
  have l3 : Reads .data
      "</h3>\n      <div class=\"card__meta\">\n        <span class=\"badge\">Category: ".data
      .data 0 := by decide
  have l4 : Reads .data "</span>\n        <span class=\"badge\">Seats: ".data .data 0 := by decide
  have l5 : Reads .data "</span>\n        <span class=\"badge\">Trans: ".data .data 0 := by decide
  have l6 : Reads .data "</span>\n        <span class=\"badge\">Fuel: ".data .data 0 := by decide
  have l7 : Reads .data
      "</span>\n      </div>\n    </div>\n    <div class=\"card__foot\">\n      <div><strong class=\"price\">".data
      .data 0 := by decide
  have l8 : Reads .data
      "</strong> SAR / day</div>\n      <button class=\"btn btn--primary small\" data-reserve data-id=\"".data
      (.attrValueDq ⟨false, "button".data, some "btn btn--primary small".data⟩ false []) 0 := by
    decide
  have l9 : Reads (.attrValueDq ⟨false, "button".data, some "btn btn--primary small".data⟩ false [])
      "\" data-title=\"".data
      (.attrValueDq ⟨false, "button".data, some "btn btn--primary small".data⟩ false []) 0 := by
    decide
  have l10 : Reads (.attrValueDq ⟨false, "button".data, some "btn btn--primary small".data⟩ false [])
      "\">Reserve</button>\n    </div>\n  </li>".data .data 0 := by decide
  have sp : Reads .data " ".data .data 0 := by decide
  have dot : Reads .data " • ".data .data 0 := by decide
  have spv : ∀ tg, Reads (.attrValueDq tg false []) " ".data (.attrValueDq tg false []) 0 :=
    fun tg => reads_value tg _ (by decide)
  have hall := l0.append ((reads_value _ _ hphoto).append (l1.append ((reads_value _ _ hbrand).append
    ((spv _).append ((reads_value _ _ hmodel).append (l2.append ((reads_text _ hbrand).append
    (sp.append ((reads_text _ hmodel).append (dot.append ((reads_text _ hyear).append
    (l3.append ((reads_text _ hcat).append (l4.append ((reads_text _ hseats).append
    (l5.append ((reads_text _ htrans).append (l6.append ((reads_text _ hfuel).append
    (l7.append ((reads_text _ hprice).append (l8.append ((reads_value _ _ hid).append
    (l9.append ((reads_value _ _ hbrand).append ((spv _).append ((reads_value _ _ hmodel).append
    l10)))))))))))))))))))))))))))
  rw [cardMarkup_data]
  exact hall

/-- Markup-free cards, joined, make as many card items as there are cards. -/
theorem joinAll_reads (ts : List CardTexts) (h : ∀ t ∈ ts, t.markupFree = true) :
    Reads .data (joinAll (ts.map cardMarkup)).data .data ts.length := by
  induction ts with
  | nil => exact ⟨rfl, rfl⟩
  | cons t r ih =>
    have h1 := cardMarkup_reads t (h t (List.mem_cons_self _ _))
    have h2 := ih (fun x hx => h x (List.mem_cons_of_mem _ hx))
    have := h1.append h2
    simp only [List.map_cons, joinAll, String.data_append, List.length_cons]
    rw [Nat.add_comm]
    exact this

theorem cardTexts_record (env : Env) (kvs : List (String × Json)) :
    ∃ t, cardTexts env (Json.obj kvs) = .ok t :=
  ⟨_, rfl⟩

theorem renderCards_records (env : Env) (cars : List Json)
    (h : ∀ c ∈ cars, ∃ kvs, c = Json.obj kvs) :
    ∃ ts : List CardTexts, List.Forall₂ (fun c t => cardTexts env c = .ok t) cars ts
      ∧ renderCards env cars = .ok (ts.map cardMarkup) := by
  induction cars with
  | nil => exact ⟨[], List.Forall₂.nil, rfl⟩
  | cons c r ih =>
    obtain ⟨ts, hf, hr⟩ := ih (fun x hx => h x (List.mem_cons_of_mem _ hx))
    obtain ⟨kvs, rfl⟩ := h c (List.mem_cons_self _ _)
    obtain ⟨t, ht⟩ := cardTexts_record env kvs
    exact ⟨t :: ts, List.Forall₂.cons ht hf, by simp [renderCards, card, ht, hr]⟩

theorem forall₂_card (env : Env) (cars : List Json) (ts : List CardTexts)
    (h : List.Forall₂ (fun c t => cardTexts env c = .ok t) cars ts) :
    List.Forall₂ (fun c html => card env c = .ok html) cars (ts.map cardMarkup) := by
  induction h with
  | nil => exact List.Forall₂.nil
  | cons hc _ ih => exact List.Forall₂.cons (by simp [card, hc]) ih

theorem forall₂_markupFree (env : Env) (cars : List Json) (ts : List CardTexts)
    (h : List.Forall₂ (fun c t => cardTexts env c = .ok t) cars ts)
    (hfree : ∀ c ∈ cars, ∀ t, cardTexts env c = .ok t → t.markupFree = true) :
    ∀ t ∈ ts, t.markupFree = true := by
  induction h with
  | nil => intro t ht; exact absurd ht (List.not_mem_nil _)
  | cons hc _ ih =>
    intro t ht
    rcases List.mem_cons.1 ht with rfl | ht
    · exact hfree _ (List.mem_cons_self _ _) _ hc
    · exact ih (fun c hcm => hfree c (List.mem_cons_of_mem _ hcm)) t ht

theorem openReserveModal_listing (env : Env) (car : Json) (p : Page) :
    (openReserveModal env car p).carsData = p.carsData
    ∧ (openReserveModal env car p).grid = p.grid
    ∧ (openReserveModal env car p).countText = p.countText
    ∧ (openReserveModal env car p).emptyHidden = p.emptyHidden := by
  unfold openReserveModal
  cases getProp env car "brand" <;> cases getProp env car "model" <;>
    simp [Page.throwUncaught, showModal]

theorem resumePending_listing (env : Env) (p : Page) :
    (resumePending env p).carsData = p.carsData
    ∧ (resumePending env p).grid = p.grid
    ∧ (resumePending env p).countText = p.countText
    ∧ (resumePending env p).emptyHidden = p.emptyHidden := by
  unfold resumePending
  simp only
  split
  · split_ifs
    · split
      · simp [Page.throwUncaught]
      · simp
      · simpa using openReserveModal_listing env _ _
    · simp
  · simp

set_option maxRecDepth 1000000 in
/-- Counterexample to C2 as stated: the response holds one record whose brand
holds markup.  `card` inserts the brand unescaped, so the markup assigned to
`grid.innerHTML` holds two list items of class `card` for N = 1. -/
theorem markup_in_brand_adds_card :
    (loadCars sampleEnv (.ok ⟨true, .ok (.arr [markupCar])⟩) listedPage).carsData.length = 1
    ∧ renderedCards (loadCars sampleEnv (.ok ⟨true, .ok (.arr [markupCar])⟩) listedPage).grid
        = 2 := by
  decide

/-- C2 (amended): when the listing response is a JSON array of N >= 1 records,
after `loadCars` the held collection is exactly that array, `grid.innerHTML` is
the markups `card` makes of the records, one per record and in response order,
joined; the empty-state element is hidden and the count reads `1 car found`
for N = 1 and `N cars found` beyond.  When none of the texts `card` inserts
holds `<` or a double quote, the markup holds exactly N list items of class
`card`. -/
theorem loadCars_nonempty (env : Env) (p : Page) (ok : Bool) (cars : List Json)
    (hne : cars ≠ []) (hrec : ∀ c ∈ cars, ∃ kvs, c = Json.obj kvs) :
    (loadCars env (.ok ⟨ok, .ok (.arr cars)⟩) p).carsData = cars
    ∧ (∃ cards, List.Forall₂ (fun c html => card env c = .ok html) cars cards
        ∧ (loadCars env (.ok ⟨ok, .ok (.arr cars)⟩) p).grid = joinAll cards)
    ∧ (loadCars env (.ok ⟨ok, .ok (.arr cars)⟩) p).emptyHidden = true
    ∧ (cars.length = 1 →
        (loadCars env (.ok ⟨ok, .ok (.arr cars)⟩) p).countText = "1 car found")
    ∧ (cars.length > 1 →
        (loadCars env (.ok ⟨ok, .ok (.arr cars)⟩) p).countText
          = toString cars.length ++ " cars found")
    ∧ ((∀ c ∈ cars, ∀ t, cardTexts env c = .ok t → t.markupFree = true) →
        renderedCards (loadCars env (.ok ⟨ok, .ok (.arr cars)⟩) p).grid = cars.length) := by
  obtain ⟨ts, hforall, hcards⟩ := renderCards_records env cars hrec
  have hlen : ts.length = cars.length := (List.Forall₂.length_eq hforall).symm
  obtain ⟨c, r, rfl⟩ := List.exists_cons_of_ne_nil hne
  have hrun : loadCars env (.ok ⟨ok, .ok (.arr (c :: r))⟩) p
      = resumePending env { loadCarsStart p with
          carsData := c :: r, emptyHidden := true, grid := joinAll (ts.map cardMarkup),
          countText := countLabel (c :: r).length } := by
    simp only [loadCars, loadCarsFinish, arrayItems, hcards]
  rw [hrun]
  obtain ⟨h1, h2, h3, h4⟩ := resumePending_listing env { loadCarsStart p with
          carsData := c :: r, emptyHidden := true, grid := joinAll (ts.map cardMarkup),
          countText := countLabel (c :: r).length }
  rw [h1, h2, h3, h4]
  refine ⟨rfl, ⟨_, forall₂_card env _ _ hforall, rfl⟩, rfl, ?_, ?_, ?_⟩
  · intro h
    simp only [countLabel, h]
    decide
  · intro h
    simp only [countLabel]
    rw [if_pos h]
    simp [String.append_assoc]
  · intro hfree
    have hr := joinAll_reads ts (forall₂_markupFree env _ _ hforall hfree)
    show tokCount .data (joinAll (ts.map cardMarkup)).data = (c :: r).length
    rw [hr.2, hlen]

/-- Witness of C2 (amended): a page that holds an earlier listing of one car
receives a response of two records, and then a response of one record. -/
theorem loadCars_nonempty_witness :
    (loadCars sampleEnv (.ok ⟨true, .ok (.arr [sampleCar, sampleCar2])⟩) listedPage).carsData
        = [sampleCar, sampleCar2]
    ∧ (loadCars sampleEnv (.ok ⟨true, .ok (.arr [sampleCar, sampleCar2])⟩) listedPage).countText
        = "2 cars found"
    ∧ renderedCards
        (loadCars sampleEnv (.ok ⟨true, .ok (.arr [sampleCar, sampleCar2])⟩) listedPage).grid = 2
    ∧ (loadCars sampleEnv (.ok ⟨true, .ok (.arr [sampleCar2])⟩) listedPage).carsData
        = [sampleCar2]
    ∧ (loadCars sampleEnv (.ok ⟨true, .ok (.arr [sampleCar2])⟩) listedPage).countText
        = "1 car found" :=
  have h2 := loadCars_nonempty sampleEnv listedPage true [sampleCar, sampleCar2] (by simp)
    (by
      intro c hc
      simp only [List.mem_cons, List.mem_singleton, List.not_mem_nil, or_false] at hc
      rcases hc with rfl | rfl
      · exact ⟨_, rfl⟩
      · exact ⟨_, rfl⟩)
  have h1 := loadCars_nonempty sampleEnv listedPage true [sampleCar2] (by simp)
    (by
      intro c hc
      simp only [List.mem_singleton] at hc
      exact ⟨_, hc.trans rfl⟩)
  ⟨h2.1, h2.2.2.2.2.1 (by decide),
    h2.2.2.2.2.2 (by
      intro c hc t ht
      simp only [List.mem_cons, List.mem_singleton, List.not_mem_nil, or_false] at hc
      rcases hc with rfl | rfl
      · injection ht with ht
        subst ht
        decide
      · injection ht with ht
        subst ht
        decide),
    h1.1, h1.2.2.2.1 rfl⟩

/-- C3: when the listing response is an empty array or not an array at all,
whatever the page was before, after `loadCars` the held collection is empty,
`grid.innerHTML` is empty and so holds no card, the empty-state element is
visible and the count text is empty. -/
theorem loadCars_no_results (env : Env) (p : Page) (ok : Bool) (body : Json)
    (h : arrayItems body = none ∨ body = Json.arr []) :
    (loadCars env (.ok ⟨ok, .ok body⟩) p).carsData = []
    ∧ (loadCars env (.ok ⟨ok, .ok body⟩) p).grid = ""
    ∧ (loadCars env (.ok ⟨ok, .ok body⟩) p).emptyHidden = false
    ∧ (loadCars env (.ok ⟨ok, .ok body⟩) p).countText = ""
    ∧ renderedCards (loadCars env (.ok ⟨ok, .ok body⟩) p).grid = 0 := by
  have hrun : loadCars env (.ok ⟨ok, .ok body⟩) p = showEmpty (loadCarsStart p) := by
    rcases h with h | h
    · simp only [loadCars, loadCarsFinish, h]
    · subst h
      simp only [loadCars, loadCarsFinish, arrayItems]
  rw [hrun]
  exact ⟨rfl, rfl, rfl, rfl, rfl⟩

/-- Witness of C3 on the responses `[]`, `null`, an object, a string and a
number, from a page that held a listing. -/
theorem loadCars_no_results_witness :
    (loadCars sampleEnv (.ok ⟨true, .ok (.arr [])⟩) listedPage).carsData = []
    ∧ renderedCards (loadCars sampleEnv (.ok ⟨true, .ok (.arr [])⟩) listedPage).grid = 0
    ∧ (loadCars sampleEnv (.ok ⟨true, .ok .null⟩) blankPage).emptyHidden = false
    ∧ (loadCars sampleEnv (.ok ⟨true, .ok (.obj [("detail", .str "x")])⟩) blankPage).grid = ""
    ∧ (loadCars sampleEnv (.ok ⟨true, .ok (.str "no")⟩) blankPage).countText = ""
    ∧ (loadCars sampleEnv (.ok ⟨false, .ok (.num "404")⟩) blankPage).countText = "" :=
  ⟨(loadCars_no_results sampleEnv _ true (.arr []) (Or.inr rfl)).1,
   (loadCars_no_results sampleEnv _ true (.arr []) (Or.inr rfl)).2.2.2.2,
   (loadCars_no_results sampleEnv _ true .null (Or.inl rfl)).2.2.1,
   (loadCars_no_results sampleEnv _ true (.obj [("detail", .str "x")]) (Or.inl rfl)).2.1,
   (loadCars_no_results sampleEnv _ true (.str "no") (Or.inl rfl)).2.2.2.1,
   (loadCars_no_results sampleEnv _ false (.num "404") (Or.inl rfl)).2.2.2.1⟩

/-! ## Reservation modal -/

/-- Counterexample to C5 as stated: with nothing stored (no session) and both
modal dates blank, confirm shows no notification at all; it only reveals the
authentication hint. -/
theorem confirm_blank_no_session_no_toast :
    ({ blankPage with modalOpen := true, activeCar := some sampleCar } : Page).mStart.value = ""
    ∧ (confirm sampleEnv (.error "unused")
        { blankPage with modalOpen := true, activeCar := some sampleCar }).toasts = []
    ∧ (confirm sampleEnv (.error "unused")
        { blankPage with modalOpen := true, activeCar := some sampleCar }).authHintHidden = false := by
  decide

/-- C5 (amended): when confirm runs with the start or the end date of the modal
blank, no request is sent and the modal stays as it was; with a session the
notification `Pick start/end dates` is shown, without a session there is no
notification and the authentication hint is revealed. -/
theorem confirm_blank_dates (env : Env) (net : FetchResult) (p : Page)
    (h : p.mStart.value = "" ∨ p.mEnd.value = "") :
    sentRequests (confirm env net p) = sentRequests p
    ∧ (confirm env net p).modalOpen = p.modalOpen
    ∧ ((getAuth env p.storage).isSome = true →
        (confirm env net p).toasts = p.toasts ++ ["Pick start/end dates"])
    ∧ (getAuth env p.storage = none →
        (confirm env net p).toasts = p.toasts ∧ (confirm env net p).authHintHidden = false) := by
  unfold confirm
  cases ha : getAuth env p.storage with
  | none => simp [sentRequests]
  | some a => simp [h, toast, sentRequests]

/-- Witness of C5 (amended): a session, the start date blank. -/
theorem confirm_blank_dates_witness :
    ({ draftPage with mStart := ⟨"", ""⟩ } : Page).mStart.value = ""
    ∧ (confirm sampleEnv (.error "unused") { draftPage with mStart := ⟨"", ""⟩ }).modalOpen = true
    ∧ sentRequests (confirm sampleEnv (.error "unused") { draftPage with mStart := ⟨"", ""⟩ })
        = sentRequests { draftPage with mStart := ⟨"", ""⟩ } :=
  have h := confirm_blank_dates sampleEnv (.error "unused")
    { draftPage with mStart := ⟨"", ""⟩ } (Or.inl rfl)
  ⟨rfl, h.2.1, h.1⟩

/-- Counterexample to C6 as stated: on a non-success answer the notification is
not always the `detail` when present and `Failed to reserve` otherwise.  An
empty `detail` is present and the text is the generic one; a `detail` that is
a list of objects (a validation error) gives `[object Object]`; a body `null`
has no `detail` and the text is that of the engine's `TypeError`. -/
theorem confirm_failure_text_counterexample :
    (confirm sampleEnv (.ok ⟨false, .ok (.obj [("detail", .str "")])⟩) draftPage).toasts
        = ["Failed to reserve"]
    ∧ (confirm sampleEnv
        (.ok ⟨false, .ok (.obj [("detail", .arr [.obj [("msg", .str "bad date")]])])⟩)
        draftPage).toasts = ["[object Object]"]
    ∧ (confirm sampleEnv (.ok ⟨false, .ok .null⟩) draftPage).toasts
        = ["Cannot read properties of null (reading \x27detail\x27)"] := by
  decide

theorem loadCarsStart_log (p : Page) :
    (loadCarsStart p).log
      = p.log ++ [Event.loadCars, Event.fetch ⟨"GET", API ++ "/cars?" ++ carsQuery p, [], none⟩] := by
  simp [loadCarsStart, skeletons, carsQuery, carsParams]

/-- C6 (amended): with a session, an active listing record and both modal dates
non-blank, confirm sends one POST carrying the listing's id and the two dates
with the header `Authorization: Bearer <token>`.  On a success status, whatever
the body, it then shows the success notification, closes the modal and invokes
`loadCars`.  On a non-success status the modal is left as it was, `loadCars`
is not invoked, and the notification is the `detail` when the body is an
object whose `detail` is a non-empty string, and `Failed to reserve` when the
body is unparseable or is an object with no `detail` or an empty one. -/
theorem confirm_submits (env : Env) (p : Page) (a : Auth) (car : List (String × Json))
    (r : HttpResponse)
    (ha : getAuth env p.storage = some a) (hc : p.activeCar = some (Json.obj car))
    (hs : p.mStart.value ≠ "") (he : p.mEnd.value ≠ "") :
    sentRequests (confirm env (.ok r) p)
        = sentRequests p
          ++ ⟨"POST", API ++ "/reservations/create_auth",
              [("Content-Type", "application/json"), ("Authorization", "Bearer " ++ a.token)],
              some (reserveBody (car.lookup "id") p.mStart.value p.mEnd.value)⟩
          :: (if r.ok then [⟨"GET", API ++ "/cars?" ++ carsQuery p, [], none⟩] else [])
    ∧ (r.ok = true →
        (confirm env (.ok r) p).log
            = p.log
              ++ [Event.fetch (reserveRequest a.token (car.lookup "id") p.mStart.value p.mEnd.value),
                  Event.toast "Reservation confirmed ✔"]
              ++ (if p.modalOpen then [Event.closeModal] else [])
              ++ [Event.loadCars, Event.fetch ⟨"GET", API ++ "/cars?" ++ carsQuery p, [], none⟩]
        ∧ (confirm env (.ok r) p).toasts = p.toasts ++ ["Reservation confirmed ✔"]
        ∧ (confirm env (.ok r) p).modalOpen = false)
    ∧ (r.ok = false →
        (confirm env (.ok r) p).modalOpen = p.modalOpen
        ∧ loadCarsCalls (confirm env (.ok r) p) = loadCarsCalls p
        ∧ (∀ body d, r.json = .ok (Json.obj body) → body.lookup "detail" = some (Json.str d) →
            d ≠ "" → (confirm env (.ok r) p).toasts = p.toasts ++ [d])
        ∧ ((∃ e, r.json = .error e) → (confirm env (.ok r) p).toasts = p.toasts ++ ["Failed to reserve"])
        ∧ (∀ body, r.json = .ok (Json.obj body) →
            (body.lookup "detail" = none ∨ body.lookup "detail" = some (Json.str "")) →
            (confirm env (.ok r) p).toasts = p.toasts ++ ["Failed to reserve"])) := by
  obtain ⟨ok, json⟩ := r
  cases ok with
  | true =>
    have hrun : confirm env (.ok ⟨true, json⟩) p
        = loadCarsStart (closeModal (toast "Reservation confirmed ✔"
            { p with log := p.log ++ [Event.fetch
              (reserveRequest a.token (car.lookup "id") p.mStart.value p.mEnd.value)] })) := by
      simp [confirm, ha, hc, hs, he, getProp]
    refine ⟨?_, ?_, ?_⟩
    · rw [hrun]
      simp only [sentRequests, loadCarsStart_log]
      by_cases hm : p.modalOpen = true <;>
        simp [closeModal, toast, hm, reserveRequest, carsQuery, carsParams]
    · intro _
      rw [hrun]
      refine ⟨?_, ?_, ?_⟩
      · rw [loadCarsStart_log]
        by_cases hm : p.modalOpen = true <;>
          simp [closeModal, toast, hm, carsQuery, carsParams]
      · by_cases hm : p.modalOpen = true <;>
          simp [loadCarsStart, skeletons, closeModal, toast, hm]
      · by_cases hm : p.modalOpen = true <;>
          simp [loadCarsStart, skeletons, closeModal, toast, hm]
    · intro h
      exact absurd h (by simp)
  | false =>
    refine ⟨?_, ?_, ?_⟩
    · cases json with
      | error e =>
        simp [confirm, ha, hc, hs, he, getProp, reserveFailed, toast, sentRequests, reserveRequest]
      | ok data =>
        cases data <;>
          simp [confirm, ha, hc, hs, he, getProp, reserveFailed, toast, sentRequests,
            reserveRequest]
    · intro h
      exact absurd h (by simp)
    · intro _
      refine ⟨?_, ?_, ?_, ?_, ?_⟩
      · cases json with
        | error e => simp [confirm, ha, hc, hs, he, getProp, reserveFailed, toast]
        | ok data =>
          cases data <;> simp [confirm, ha, hc, hs, he, getProp, reserveFailed, toast]
      · cases json with
        | error e =>
          simp [confirm, ha, hc, hs, he, getProp, reserveFailed, toast, loadCarsCalls]
        | ok data =>
          cases data <;>
            simp [confirm, ha, hc, hs, he, getProp, reserveFailed, toast, loadCarsCalls]
      · intro body d hj hd hne
        simp only at hj
        subst hj
        simp [confirm, ha, hc, hs, he, getProp, hd, truthyVal, truthy, valToString, jsToString,
          reserveFailed, toast, hne]
      · rintro ⟨e, hj⟩
        simp only at hj
        subst hj
        simp [confirm, ha, hc, hs, he, getProp, truthyVal, reserveFailed, toast]
      · intro body hj hd
        simp only at hj
        subst hj
        rcases hd with hd | hd <;>
          simp [confirm, ha, hc, hs, he, getProp, hd, truthyVal, truthy, reserveFailed, toast]

/-- Witness of C6 (amended): the draft page, answered with success and an
unparseable body. -/
theorem confirm_submits_witness :
    getAuth sampleEnv draftPage.storage = some ⟨"t0k3n", .obj [("email", .str "a@b.c")]⟩
    ∧ (confirm sampleEnv (.ok ⟨true, .error "not json"⟩) draftPage).modalOpen = false
    ∧ (confirm sampleEnv (.ok ⟨true, .error "not json"⟩) draftPage).toasts
        = ["Reservation confirmed ✔"] :=
  have ha : getAuth sampleEnv draftPage.storage
      = some ⟨"t0k3n", .obj [("email", .str "a@b.c")]⟩ := by rfl
  have h := confirm_submits sampleEnv draftPage _ _ ⟨true, .error "not json"⟩ ha rfl
    (by decide) (by decide)
  ⟨ha, (h.2.1 rfl).2.2, (h.2.1 rfl).2.1⟩

/-- C7 at its failing input: a session and the marker `c1` are stored and the
listing response is the empty array.  The load completes without an error and
the marker is still stored.  On the sibling path, a non-empty response, the
marker is consumed and the modal is opened for the listing with that id. -/
theorem pending_marker_survives_empty_load :
    (getAuth sampleEnv pendingPage.storage).isSome = true
    ∧ pendingPage.storage.getItem "pendingCarId" = some "c1"
    ∧ (loadCars sampleEnv (.ok ⟨true, .ok (.arr [])⟩) pendingPage).uncaught = []
    ∧ (loadCars sampleEnv (.ok ⟨true, .ok (.arr [])⟩) pendingPage).storage.getItem "pendingCarId"
        = some "c1"
    ∧ (loadCars sampleEnv (.ok ⟨true, .ok (.arr [sampleCar])⟩) pendingPage).storage.getItem
        "pendingCarId" = none
    ∧ (loadCars sampleEnv (.ok ⟨true, .ok (.arr [sampleCar])⟩) pendingPage).modalOpen = true := by
  decide

/-! ## Session -/

/-- Counterexample to C8 as stated: the user entry `true` is valid JSON that is
not an object, and `getAuth` returns a session holding it instead of `null`. -/
theorem getAuth_accepts_non_object_user :
    (getAuth sampleEnv
        (fun k => if k = "token" then some "t0k3n" else if k = "user" then some "true" else none)).isSome
      = true
    ∧ getAuth sampleEnv
        (fun k => if k = "token" then some "t0k3n" else if k = "user" then some "true" else none)
      = some ⟨"t0k3n", Json.bool true⟩ :=
  ⟨by decide, by rfl⟩

/-- C8 (amended): `getAuth` never raises.  It returns `null` when the token
entry is missing or empty, when the user entry is missing, empty or
unparseable, and when the user entry parses to a falsy value (`null`, `false`,
`0`, the empty string).  It returns the stored token with the parsed user when
the token is non-empty and the user entry parses to a truthy value, an object
or not. -/
theorem getAuth_total (env : Env) (ls : Storage)
    (hnull : env.jsonParse "null" = .ok Json.null) :
    (∃ r, getAuthResult env ls = .ok r)
    ∧ ((ls.getItem "token" = none ∨ ls.getItem "token" = some "") → getAuth env ls = none)
    ∧ ((ls.getItem "user" = none ∨ ls.getItem "user" = some "") → getAuth env ls = none)
    ∧ (∀ u e, ls.getItem "user" = some u → env.jsonParse u = .error e → getAuth env ls = none)
    ∧ (∀ u v, ls.getItem "user" = some u → env.jsonParse u = .ok v → truthy v = false →
        getAuth env ls = none)
    ∧ (∀ t u v, ls.getItem "token" = some t → t ≠ "" → ls.getItem "user" = some u → u ≠ "" →
        env.jsonParse u = .ok v → truthy v = true → getAuth env ls = some ⟨t, v⟩) := by
  refine ⟨?_, ?_, ?_, ?_, ?_, ?_⟩
  · unfold getAuthResult
    cases getAuthBody env ls with
    | ok r => exact ⟨r, rfl⟩
    | error e => exact ⟨none, rfl⟩
  · intro h
    unfold getAuth getAuthResult getAuthBody
    cases hp : env.jsonParse (match ls.getItem "user" with
        | some s => if s = "" then "null" else s
        | none => "null") with
    | error e => simp [bind, Except.bind, hp]
    | ok v => rcases h with h | h <;> simp [bind, Except.bind, pure, Except.pure, hp, h]
  · intro h
    unfold getAuth getAuthResult getAuthBody
    rcases h with h | h <;>
      cases ht : ls.getItem "token" <;>
      simp [bind, Except.bind, pure, Except.pure, h, hnull, truthy]
  · intro u e hu hp
    unfold getAuth getAuthResult getAuthBody
    by_cases hu0 : u = ""
    · subst hu0
      cases ht : ls.getItem "token" <;>
        simp [bind, Except.bind, pure, Except.pure, hu, hnull, truthy]
    · simp [bind, Except.bind, hu, hu0, hp]
  · intro u v hu hp hv
    unfold getAuth getAuthResult getAuthBody
    by_cases hu0 : u = ""
    · subst hu0
      cases ht : ls.getItem "token" <;>
        simp [bind, Except.bind, pure, Except.pure, hu, hnull, truthy]
    · cases ht : ls.getItem "token" <;>
        simp [bind, Except.bind, pure, Except.pure, hu, hu0, hp, hv]
  · intro t u v ht ht0 hu hu0 hp hv
    unfold getAuth getAuthResult getAuthBody
    simp [bind, Except.bind, pure, Except.pure, hu, hu0, hp, hv, ht, ht0]

/-- Witness of C8 (amended) on the platform of the examples. -/
theorem getAuth_total_witness :
    sampleEnv.jsonParse "null" = .ok Json.null
    ∧ getAuth sampleEnv blankPage.storage = none
    ∧ getAuth sampleEnv sessionStore = some ⟨"t0k3n", .obj [("email", .str "a@b.c")]⟩ :=
  have h := getAuth_total sampleEnv
  ⟨rfl, (h blankPage.storage rfl).2.1 (Or.inl rfl),
    (h sessionStore rfl).2.2.2.2.2 "t0k3n" "\x7b\"email\":\"a@b.c\"\x7d" _ rfl (by decide) rfl
      (by decide) rfl rfl⟩

/-! ## Dismissing the modal -/

/-- Counterexample to C10 as stated: the modal is opened on a listing and then
cancelled (or closed); the modal is closed and `activeCar` still holds the
listing. -/
theorem cancel_keeps_activeCar :
    (cancel (openReserveModal sampleEnv sampleCar
        { blankPage with storage := sessionStore, carsData := [sampleCar] })).modalOpen = false
    ∧ (cancel (openReserveModal sampleEnv sampleCar
        { blankPage with storage := sessionStore, carsData := [sampleCar] })).activeCar.isSome
        = true
    ∧ (cancel (openReserveModal sampleEnv sampleCar
        { blankPage with storage := sessionStore, carsData := [sampleCar] })).activeCar
        = some sampleCar
    ∧ (close (openReserveModal sampleEnv sampleCar
        { blankPage with storage := sessionStore, carsData := [sampleCar] })).activeCar
        = some sampleCar :=
  ⟨by decide, by decide, by rfl, by rfl⟩

theorem closeModal_fields (p : Page) :
    (closeModal p).modalOpen = false
    ∧ (closeModal p).activeCar = p.activeCar
    ∧ (closeModal p).storage = p.storage
    ∧ (closeModal p).carsData = p.carsData
    ∧ sentRequests (closeModal p) = sentRequests p
    ∧ (closeModal p).toasts = p.toasts := by
  unfold closeModal
  by_cases hm : p.modalOpen = true
  · simp [hm, sentRequests]
  · simp [hm]

theorem loadCarsStart_activeCar (p : Page) : (loadCarsStart p).activeCar = p.activeCar := by
  simp [loadCarsStart, skeletons]

theorem reserveFailed_activeCar (msg : String) (p : Page) :
    (reserveFailed msg p).activeCar = p.activeCar := by
  simp [reserveFailed, toast]

/-- C10 (amended): dismissing the modal by the cancel button or by the close
button closes it and changes neither `activeCar`, nor storage, nor the held
collection, and sends no request; confirm, successful or not, never changes
`activeCar` either.  The listing recorded as active is kept until the modal is
opened on another one. -/
theorem dismiss_leaves_activeCar (env : Env) (net : FetchResult) (p : Page) :
    ((cancel p).modalOpen = false ∧ (cancel p).activeCar = p.activeCar
      ∧ (cancel p).storage = p.storage ∧ (cancel p).carsData = p.carsData
      ∧ sentRequests (cancel p) = sentRequests p)
    ∧ ((close p).modalOpen = false ∧ (close p).activeCar = p.activeCar
      ∧ (close p).storage = p.storage ∧ (close p).carsData = p.carsData
      ∧ sentRequests (close p) = sentRequests p)
    ∧ (confirm env net p).activeCar = p.activeCar := by
  obtain ⟨h1, h2, h3, h4, h5, _⟩ := closeModal_fields p
  refine ⟨⟨h1, h2, h3, h4, h5⟩, ⟨h1, h2, h3, h4, h5⟩, ?_⟩
  unfold confirm
  cases getAuth env p.storage with
  | none => rfl
  | some a =>
    simp only
    split_ifs
    · simp [toast]
    · cases hc : p.activeCar with
      | none => simp [reserveFailed_activeCar, hc]
      | some car =>
        simp only
        cases getProp env car "id" with
        | error e => simp [reserveFailed_activeCar, hc]
        | ok carId =>
          simp only
          cases net with
          | error e => simp [reserveFailed_activeCar, hc]
          | ok r =>
            simp only
            split_ifs
            · cases getProp env _ "detail" <;> simp [reserveFailed_activeCar, hc]
            · rw [loadCarsStart_activeCar, (closeModal_fields _).2.1]
              simp [toast, hc]

/-! ## Calendar arithmetic -/

theorem isLeapYear_iff (y : Int) :
    isLeapYear y = true ↔ ((y % 4 = 0 ∧ y % 100 ≠ 0) ∨ y % 400 = 0) := by
  simp [isLeapYear]

theorem dayFromYear_succ (y : Int) :
    dayFromYear (y + 1) = dayFromYear y + 365 + (if isLeapYear y = true then 1 else 0) := by
  by_cases h : isLeapYear y = true
  · rw [if_pos h]
    rw [isLeapYear_iff] at h
    unfold dayFromYear
    omega
  · rw [if_neg h]
    rw [isLeapYear_iff] at h
    unfold dayFromYear
    omega

theorem dayFromYear_lt (a b : Int) (h : a < b) : dayFromYear a + 365 ≤ dayFromYear b := by
  unfold dayFromYear
  omega

theorem dayFromYear_bounds (y : Int) :
    146097 * (y - 1970) - 506 ≤ 400 * dayFromYear y
    ∧ 400 * dayFromYear y ≤ 146097 * (y - 1970) + 589 := by
  unfold dayFromYear
  omega

theorem yearFromDay_bracket (z : Int) :
    dayFromYear (yearFromDay z) ≤ z ∧ z < dayFromYear (yearFromDay z + 1) := by
  unfold yearFromDay
  simp only
  generalize he : 1970 + 400 * z / 146097 = e
  have hdiv : 146097 * (e - 1970) ≤ 400 * z ∧ 400 * z < 146097 * (e - 1970) + 146097 := by
    omega
  split_ifs with h1 h2
  · rw [sub_add_cancel]
    refine ⟨?_, h1⟩
    have := dayFromYear_bounds (e - 1)
    omega
  · refine ⟨h2, ?_⟩
    have := dayFromYear_bounds (e + 1 + 1)
    omega
  · exact ⟨by omega, by omega⟩

theorem dayFromYear_mono (a b : Int) (h : a ≤ b) : dayFromYear a ≤ dayFromYear b := by
  unfold dayFromYear
  omega

theorem leapDay_range (leap : Bool) : 0 ≤ leapDay leap ∧ leapDay leap ≤ 1 := by
  cases leap <;> simp [leapDay]

theorem dayFromYear_next (y : Int) :
    dayFromYear (y + 1) = dayFromYear y + 365 + leapDay (isLeapYear y) := by
  rw [dayFromYear_succ]
  cases isLeapYear y <;> simp [leapDay]

theorem dayWithinYear_range (z : Int) :
    0 ≤ dayWithinYear z ∧ dayWithinYear z ≤ 364 + leapDay (isLeapYear (yearFromDay z)) := by
  have hb := yearFromDay_bracket z
  have hs := dayFromYear_next (yearFromDay z)
  unfold dayWithinYear
  omega

theorem monthOfYearDay_range (leap : Bool) (d : Int) :
    0 ≤ monthOfYearDay leap d ∧ monthOfYearDay leap d ≤ 11 := by
  unfold monthOfYearDay
  generalize leapDay leap = l
  omega

theorem monthFromDay_range (z : Int) : 0 ≤ monthFromDay z ∧ monthFromDay z ≤ 11 :=
  monthOfYearDay_range _ _

/-- Day `d` of a year falls inside the month the table assigns to it. -/
theorem monthOfYearDay_date (leap : Bool) (d : Int)
    (h0 : 0 ≤ d) (h1 : d ≤ 364 + leapDay leap) :
    1 ≤ d - daysBeforeMonth leap (monthOfYearDay leap d) + 1
    ∧ d - daysBeforeMonth leap (monthOfYearDay leap d) + 1
        ≤ daysInMonth leap (monthOfYearDay leap d + 1) := by
  have hl := leapDay_range leap
  unfold monthOfYearDay daysBeforeMonth daysInMonth
  generalize leapDay leap = l at *
  omega

theorem dateFromDay_range (z : Int) :
    1 ≤ dateFromDay z
    ∧ dateFromDay z ≤ daysInMonth (isLeapYear (yearFromDay z)) (monthFromDay z + 1) := by
  have h := dayWithinYear_range z
  exact monthOfYearDay_date _ _ h.1 h.2

theorem makeDay_fromDay (z k : Int) :
    makeDay (yearFromDay z) (monthFromDay z) (dateFromDay z + k) = z + k := by
  have hm := monthFromDay_range z
  have h1 : monthFromDay z / 12 = 0 := by omega
  have h2 : monthFromDay z % 12 = monthFromDay z := by omega
  unfold makeDay
  simp only [h1, h2, add_zero]
  unfold dateFromDay dayWithinYear
  omega

theorem daysBeforeMonth_next (leap : Bool) (m1 m2 : Int) (h1 : 0 ≤ m1) (h2 : m2 ≤ 11)
    (h : m1 < m2) :
    daysBeforeMonth leap m1 + daysInMonth leap (m1 + 1) ≤ daysBeforeMonth leap m2 := by
  have hl := leapDay_range leap
  unfold daysBeforeMonth daysInMonth
  generalize leapDay leap = l at *
  omega

theorem daysBeforeMonth_end (leap : Bool) (m : Int) (h1 : 0 ≤ m) (h2 : m ≤ 11) :
    0 ≤ daysBeforeMonth leap m
    ∧ daysBeforeMonth leap m + daysInMonth leap (m + 1) ≤ 365 + leapDay leap := by
  have hl := leapDay_range leap
  unfold daysBeforeMonth daysInMonth
  generalize leapDay leap = l at *
  omega

theorem daysInMonth_le (leap : Bool) (m : Int) : daysInMonth leap m ≤ 31 := by
  have hl := leapDay_range leap
  unfold daysInMonth
  generalize leapDay leap = l at *
  omega

/-- Built-in `MakeDay` is strictly increasing along the calendar order of valid dates. -/
theorem makeDay_lt (y1 m1 d1 y2 m2 d2 : Int)
    (hm1 : 0 ≤ m1 ∧ m1 ≤ 11) (hd1 : 1 ≤ d1 ∧ d1 ≤ daysInMonth (isLeapYear y1) (m1 + 1))
    (hm2 : 0 ≤ m2 ∧ m2 ≤ 11) (hd2 : 1 ≤ d2 ∧ d2 ≤ daysInMonth (isLeapYear y2) (m2 + 1))
    (h : dateKey y1 m1 d1 < dateKey y2 m2 d2) :
    makeDay y1 m1 d1 < makeDay y2 m2 d2 := by
  have e1 : m1 / 12 = 0 := by omega
  have e2 : m1 % 12 = m1 := by omega
  have e3 : m2 / 12 = 0 := by omega
  have e4 : m2 % 12 = m2 := by omega
  unfold makeDay
  simp only [e1, e2, e3, e4, add_zero]
  have b1 := daysBeforeMonth_end (isLeapYear y1) m1 hm1.1 hm1.2
  have b2 := daysBeforeMonth_end (isLeapYear y2) m2 hm2.1 hm2.2
  have dim1 := daysInMonth_le (isLeapYear y1) (m1 + 1)
  have dim2 := daysInMonth_le (isLeapYear y2) (m2 + 1)
  unfold dateKey at h
  rcases lt_trichotomy y1 y2 with hy | hy | hy
  · have hs := dayFromYear_next y1
    have hmono := dayFromYear_mono (y1 + 1) y2 (by omega)
    omega
  · subst hy
    rcases lt_trichotomy m1 m2 with hm | hm | hm
    · have := daysBeforeMonth_next (isLeapYear y1) m1 m2 hm1.1 hm2.2 hm
      omega
    · subst hm
      omega
    · omega
  · omega

/-! ## Date strings -/

theorem digitVal_some (c : Char) (k : Nat) (h : digitVal c = some k) :
    k < 10 ∧ c = digitChar k := by
  unfold digitVal at h
  split_ifs at h with hc
  simp only [Option.some.injEq] at h
  refine ⟨by omega, ?_⟩
  have : 48 + k = c.toNat := by omega
  rw [digitChar, this, Char.ofNat_toNat]

theorem digitsVal2 (a b : Char) (n : Nat) (h : digitsVal 0 [a, b] = some n) :
    n ≤ 99 ∧ [a, b] = pad2 n := by
  simp only [digitsVal] at h
  cases ha : digitVal a with
  | none => simp [ha] at h
  | some k1 =>
    cases hb : digitVal b with
    | none => simp [ha, hb] at h
    | some k2 =>
      simp only [ha, hb, Option.some.injEq] at h
      obtain ⟨h1, e1⟩ := digitVal_some a k1 ha
      obtain ⟨h2, e2⟩ := digitVal_some b k2 hb
      have q1 : n / 10 % 10 = k1 := by omega
      have q2 : n % 10 = k2 := by omega
      refine ⟨by omega, ?_⟩
      rw [pad2, q1, q2, e1, e2]

theorem digitsVal4 (a b c d : Char) (n : Nat) (h : digitsVal 0 [a, b, c, d] = some n) :
    n ≤ 9999 ∧ [a, b, c, d] = pad4 n := by
  simp only [digitsVal] at h
  cases ha : digitVal a with
  | none => simp [ha] at h
  | some k1 =>
    cases hb : digitVal b with
    | none => simp [ha, hb] at h
    | some k2 =>
      cases hc : digitVal c with
      | none => simp [ha, hb, hc] at h
      | some k3 =>
        cases hd : digitVal d with
        | none => simp [ha, hb, hc, hd] at h
        | some k4 =>
          simp only [ha, hb, hc, hd, Option.some.injEq] at h
          obtain ⟨h1, e1⟩ := digitVal_some a k1 ha
          obtain ⟨h2, e2⟩ := digitVal_some b k2 hb
          obtain ⟨h3, e3⟩ := digitVal_some c k3 hc
          obtain ⟨h4, e4⟩ := digitVal_some d k4 hd
          have q1 : n / 1000 % 10 = k1 := by omega
          have q2 : n / 100 % 10 = k2 := by omega
          have q3 : n / 10 % 10 = k3 := by omega
          have q4 : n % 10 = k4 := by omega
          refine ⟨by omega, ?_⟩
          rw [pad4, pad3, pad2, q1, q2, q3, q4, e1, e2, e3, e4]

/-- What `parseDate4` accepts is a date written with `dateChars`. -/
theorem parseDate4_some (s : String) (y m d : Int) (h : parseDate4 s = some (y, m, d)) :
    ∃ yn mn dn : Nat, y = yn ∧ m = mn ∧ d = dn ∧ yn ≤ 9999 ∧ 1 ≤ mn ∧ mn ≤ 12 ∧ 1 ≤ dn
      ∧ d ≤ daysInMonth (isLeapYear y) m ∧ s = String.mk (dateChars yn mn dn) := by
  unfold parseDate4 at h
  split at h
  · rename_i y1 y2 y3 y4 s1 m1 m2 s2 d1 d2 hs
    split at h
    · rename_i yn mn dn hy hm hd
      split_ifs at h with hc
      simp only [Option.some.injEq, Prod.mk.injEq] at h
      obtain ⟨rfl, rfl, rfl⟩ := h
      obtain ⟨hy1, ey⟩ := digitsVal4 _ _ _ _ _ hy
      obtain ⟨hm1, em⟩ := digitsVal2 _ _ _ hm
      obtain ⟨hd1, ed⟩ := digitsVal2 _ _ _ hd
      obtain ⟨rfl, rfl, c1, c2, c3, c4⟩ := hc
      refine ⟨yn, mn, dn, rfl, rfl, rfl, hy1, c1, c2, c3, c4, ?_⟩
      have : s = String.mk s.data := rfl
      rw [this, hs]
      have e : [y1, y2, y3, y4, '-', m1, m2, '-', d1, d2]
          = [y1, y2, y3, y4] ++ '-' :: [m1, m2] ++ '-' :: [d1, d2] := rfl
      rw [e, ey, em, ed, dateChars]
    · exact absurd h (by simp)
  · exact absurd h (by simp)


theorem digitChar_toNat : ∀ k, k < 10 → (digitChar k).toNat = 48 + k := by decide

theorem utf16_mk_cons (c : Char) (cs : List Char) (h : c.toNat < 0x10000) :
    utf16 (String.mk (c :: cs)) = c.toNat :: utf16 (String.mk cs) := by
  simp [utf16, h]

theorem utf16_digit (k : Nat) (hk : k < 10) (cs : List Char) :
    utf16 (String.mk (digitChar k :: cs)) = (48 + k) :: utf16 (String.mk cs) := by
  rw [utf16_mk_cons _ _ (by rw [digitChar_toNat k hk]; omega), digitChar_toNat k hk]

theorem utf16_dash (cs : List Char) :
    utf16 (String.mk ('-' :: cs)) = 45 :: utf16 (String.mk cs) := by
  rw [utf16_mk_cons _ _ (by decide)]
  rfl

theorem utf16_dateChars (y m d : Nat) :
    utf16 (String.mk (dateChars y m d))
      = [48 + y / 1000 % 10, 48 + y / 100 % 10, 48 + y / 10 % 10, 48 + y % 10, 45,
         48 + m / 10 % 10, 48 + m % 10, 45, 48 + d / 10 % 10, 48 + d % 10] := by
  simp only [dateChars, pad4, pad3, pad2, List.cons_append, List.nil_append]
  rw [utf16_digit _ (Nat.mod_lt _ (by decide)), utf16_digit _ (Nat.mod_lt _ (by decide)),
    utf16_digit _ (Nat.mod_lt _ (by decide)), utf16_digit _ (Nat.mod_lt _ (by decide)),
    utf16_dash, utf16_digit _ (Nat.mod_lt _ (by decide)), utf16_digit _ (Nat.mod_lt _ (by decide)),
    utf16_dash, utf16_digit _ (Nat.mod_lt _ (by decide)), utf16_digit _ (Nat.mod_lt _ (by decide))]
  rfl

theorem digits4 (y : Nat) (hy : y ≤ 9999) :
    ∃ a b c d, a < 10 ∧ b < 10 ∧ c < 10 ∧ d < 10 ∧ y = 1000 * a + 100 * b + 10 * c + d
      ∧ y / 1000 % 10 = a ∧ y / 100 % 10 = b ∧ y / 10 % 10 = c ∧ y % 10 = d :=
  ⟨y / 1000 % 10, y / 100 % 10, y / 10 % 10, y % 10, by omega⟩

theorem digits2 (m : Nat) (hm : m ≤ 99) :
    ∃ a b, a < 10 ∧ b < 10 ∧ m = 10 * a + b ∧ m / 10 % 10 = a ∧ m % 10 = b :=
  ⟨m / 10 % 10, m % 10, by omega⟩

theorem unitsLt_digits (a1 a2 a3 a4 a5 a6 a7 a8 b1 b2 b3 b4 b5 b6 b7 b8 : Nat)
    (_ha1 : a1 < 10) (ha2 : a2 < 10) (ha3 : a3 < 10) (ha4 : a4 < 10)
    (ha5 : a5 < 10) (ha6 : a6 < 10) (ha7 : a7 < 10) (ha8 : a8 < 10)
    (_hb1 : b1 < 10) (hb2 : b2 < 10) (hb3 : b3 < 10) (hb4 : b4 < 10)
    (hb5 : b5 < 10) (hb6 : b6 < 10) (hb7 : b7 < 10) (hb8 : b8 < 10) :
    unitsLt [48 + a1, 48 + a2, 48 + a3, 48 + a4, 45, 48 + a5, 48 + a6, 45, 48 + a7, 48 + a8]
        [48 + b1, 48 + b2, 48 + b3, 48 + b4, 45, 48 + b5, 48 + b6, 45, 48 + b7, 48 + b8] = true
      ↔ (1000 * a1 + 100 * a2 + 10 * a3 + a4) * 10000 + (10 * a5 + a6) * 100 + (10 * a7 + a8)
        < (1000 * b1 + 100 * b2 + 10 * b3 + b4) * 10000 + (10 * b5 + b6) * 100 + (10 * b7 + b8) := by
  simp only [unitsLt, Bool.or_eq_true, Bool.and_eq_true, decide_eq_true_eq, beq_iff_eq,
    Bool.or_false, Bool.and_false, Nat.lt_irrefl, decide_False, Bool.false_or, Bool.true_and,
    beq_self_eq_true]
  omega

/-- On dates written `YYYY-MM-DD` the order of strings is the order of dates. -/
theorem jsStrLt_dateChars (y1 m1 d1 y2 m2 d2 : Nat)
    (hy1 : y1 ≤ 9999) (hm1 : m1 ≤ 99) (hd1 : d1 ≤ 99)
    (hy2 : y2 ≤ 9999) (hm2 : m2 ≤ 99) (hd2 : d2 ≤ 99) :
    jsStrLt (String.mk (dateChars y1 m1 d1)) (String.mk (dateChars y2 m2 d2)) = true
      ↔ y1 * 10000 + m1 * 100 + d1 < y2 * 10000 + m2 * 100 + d2 := by
  unfold jsStrLt
  rw [utf16_dateChars, utf16_dateChars]
  obtain ⟨a1, a2, a3, a4, ha1, ha2, ha3, ha4, ey1, e1, e2, e3, e4⟩ := digits4 y1 hy1
  obtain ⟨a5, a6, ha5, ha6, em1, e5, e6⟩ := digits2 m1 hm1
  obtain ⟨a7, a8, ha7, ha8, ed1, e7, e8⟩ := digits2 d1 hd1
  obtain ⟨b1, b2, b3, b4, hb1, hb2, hb3, hb4, ey2, f1, f2, f3, f4⟩ := digits4 y2 hy2
  obtain ⟨b5, b6, hb5, hb6, em2, f5, f6⟩ := digits2 m2 hm2
  obtain ⟨b7, b8, hb7, hb8, ed2, f7, f8⟩ := digits2 d2 hd2
  rw [e1, e2, e3, e4, e5, e6, e7, e8, f1, f2, f3, f4, f5, f6, f7, f8,
    unitsLt_digits a1 a2 a3 a4 a5 a6 a7 a8 b1 b2 b3 b4 b5 b6 b7 b8
      ha1 ha2 ha3 ha4 ha5 ha6 ha7 ha8 hb1 hb2 hb3 hb4 hb5 hb6 hb7 hb8]
  rw [ey1, em1, ed1, ey2, em2, ed2]

/-! ## The change listener of a start date -/

theorem msPerDay_eq : msPerDay = 86400000 := rfl

theorem timeClip_ok (t : Int) (h : t.natAbs ≤ 8640000000000000) : timeClip t = some t := by
  simp [timeClip, h]

/-- A date of a year from 1 to 9999 lies between the first day of year 1 and
the first day of year 10000. -/
theorem makeDay_bounds (y m d : Int) (hy : 1 ≤ y ∧ y ≤ 9999) (hm : 0 ≤ m ∧ m ≤ 11)
    (hd : 1 ≤ d ∧ d ≤ daysInMonth (isLeapYear y) (m + 1)) :
    -719162 ≤ makeDay y m d ∧ makeDay y m d < 2932897 := by
  have e1 : m / 12 = 0 := by omega
  have e2 : m % 12 = m := by omega
  have b := daysBeforeMonth_end (isLeapYear y) m hm.1 hm.2
  have n := dayFromYear_next y
  have m1 := dayFromYear_mono 1 y hy.1
  have m2 := dayFromYear_mono (y + 1) 10000 (by omega)
  have c1 : dayFromYear 1 = -719162 := by decide
  have c2 : dayFromYear 10000 = 2932897 := by decide
  unfold makeDay
  simp only [e1, e2, add_zero]
  omega

theorem yearFromDay_ge_one (z : Int) (h : -719162 ≤ z) : 1 ≤ yearFromDay z := by
  have hb := yearFromDay_bracket z
  by_contra hc
  have := dayFromYear_mono (yearFromDay z + 1) 1 (by omega)
  have c1 : dayFromYear 1 = -719162 := by decide
  omega

/-- The time value after `d.setDate(d.getDate() + 1)` on a valid date. -/
theorem setDate_next (tz : TimeZone) (t : Int) :
    setDate tz (some t) ((getDate tz (some t)).map (fun n => n + 1))
      = timeClip (utcTime tz (localTime tz t + msPerDay)) := by
  simp only [setDate, getDate, Option.map]
  rw [makeDay_fromDay]
  congr 2
  have := Int.emod_add_ediv (localTime tz t) msPerDay
  rw [msPerDay_eq] at *
  omega


theorem sliceTo_iso4 (t : Int) (h : 0 ≤ yearFromDay (t / msPerDay) ∧ yearFromDay (t / msPerDay) ≤ 9999) :
    ∃ iso, toISOString (some t) = some iso
      ∧ sliceTo 10 iso = String.mk (dateChars (yearFromDay (t / msPerDay)).toNat
          (monthFromDay (t / msPerDay) + 1).toNat (dateFromDay (t / msPerDay)).toNat) := by
  refine ⟨_, rfl, ?_⟩
  simp only [sliceTo, isoYear, h, and_self, if_true, pad4, pad3, pad2, dateChars,
    List.cons_append, List.nil_append, List.take_succ_cons, List.take_zero]

theorem digitChar_ne_dash : ∀ k, k < 10 → (digitChar k == '-') = false := by decide

theorem sliceTo_iso6 (t : Int) (h : 9999 < yearFromDay (t / msPerDay)) :
    ∃ iso, toISOString (some t) = some iso ∧ sanitizeDate (sliceTo 10 iso) = "" := by
  refine ⟨_, rfl, ?_⟩
  have h1 : ¬ (0 ≤ yearFromDay (t / msPerDay) ∧ yearFromDay (t / msPerDay) ≤ 9999) := by omega
  have h2 : ¬ yearFromDay (t / msPerDay) < 0 := by omega
  have hv : isValidDateString (sliceTo 10 (String.mk
      (isoYear (yearFromDay (t / msPerDay)) ++ '-' :: pad2 (monthFromDay (t / msPerDay) + 1).toNat
        ++ '-' :: pad2 (dateFromDay (t / msPerDay)).toNat
        ++ 'T' :: pad2 ((t % msPerDay).toNat / 3600000) ++ ':' :: pad2 ((t % msPerDay).toNat / 60000 % 60)
        ++ ':' :: pad2 ((t % msPerDay).toNat / 1000 % 60) ++ '.' :: pad3 ((t % msPerDay).toNat % 1000)
        ++ ['Z']))) = false := by
    simp only [sliceTo, isoYear, h1, h2, if_false, pad6, pad4, pad3, pad2,
      List.cons_append, List.nil_append, List.take_succ_cons, List.take_zero,
      isValidDateString, List.reverse_cons, List.reverse_nil]
    split
    · simp [digitChar_ne_dash _ (Nat.mod_lt _ (by decide : 10 > 0))]
    · rfl
  simp only [sanitizeDate, toISOString] at hv ⊢
  simp only [hv]
  rfl


theorem jsStrLt_asymm_units : ∀ a b : List Nat, unitsLt a b = true → unitsLt b a = false
  | _, [] => by intro h; simp [unitsLt] at h
  | [], _ :: _ => by intro _; simp [unitsLt]
  | x :: r, y :: t => by
    intro h
    simp only [unitsLt, Bool.or_eq_true, Bool.and_eq_true, decide_eq_true_eq, beq_iff_eq] at h
    simp only [unitsLt, Bool.or_eq_false_iff, Bool.and_eq_false_iff, decide_eq_false_iff_not,
      beq_eq_false_iff_ne]
    rcases h with h | ⟨h1, h2⟩
    · exact ⟨by omega, Or.inl (by omega)⟩
    · exact ⟨by omega, Or.inr (jsStrLt_asymm_units r t h2)⟩

/-- On strings `a < b` gives `a <= b` on strings. -/
theorem jsStrLe_of_lt (a b : String) (h : jsStrLt a b = true) : jsStrLe a b = true := by
  simp [jsStrLe, jsStrLt, jsStrLt_asymm_units _ _ h]

/-- The date the listener writes into the end input when it pushes it past a
start date `s`: no exception is raised, and what the input holds afterwards is
empty or a date not before `s`. -/
theorem pushed_end (tz : TimeZone) (hb : tz.Bounded) (s : String) (hs : isDate4 s = true) :
    ∃ iso, toISOString (setDate tz (dateParse s) ((getDate tz (dateParse s)).map (fun n => n + 1)))
        = some iso
      ∧ (sanitizeDate (sliceTo 10 iso) = "" ∨ jsStrLe s (sanitizeDate (sliceTo 10 iso)) = true) := by
  unfold isDate4 at hs
  cases hp : parseDate4 s with
  | none => simp [hp] at hs
  | some ymd =>
    obtain ⟨y, m, d⟩ := ymd
    simp only [hp, decide_eq_true_eq] at hs
    obtain ⟨yn, mn, dn, rfl, rfl, rfl, hy9, hm1, hm12, hd1, hdim, rfl⟩ := parseDate4_some s _ _ _ hp
    have hm0 : (0 : Int) ≤ (mn : Int) - 1 ∧ (mn : Int) - 1 ≤ 11 := by omega
    have hdim2 : (1 : Int) ≤ dn ∧ (dn : Int) ≤ daysInMonth (isLeapYear yn) ((mn : Int) - 1 + 1) := by
      rw [sub_add_cancel]
      exact ⟨by omega, hdim⟩
    have hz := makeDay_bounds yn ((mn : Int) - 1) dn ⟨hs, by omega⟩ hm0 hdim2
    generalize hzdef : makeDay (yn : Int) ((mn : Int) - 1) dn = z at hz
    have hdp : dateParse (String.mk (dateChars yn mn dn)) = some (z * msPerDay) := by
      simp only [dateParse, hp, hzdef]
      apply timeClip_ok
      rw [msPerDay_eq]
      omega
    rw [hdp, setDate_next]
    obtain ⟨b1, b2, b3⟩ := hb (z * msPerDay)
    generalize ho1 : tz.offsetAtUTC (z * msPerDay) = o1 at b1 b3
    generalize ho2 : tz.offsetAtLocal (localTime tz (z * msPerDay) + msPerDay) = o2 at b2 b3
    have hu : utcTime tz (localTime tz (z * msPerDay) + msPerDay)
        = z * msPerDay + msPerDay + o1 - o2 := by
      unfold utcTime
      rw [ho2]
      unfold localTime
      rw [ho1]
      ring
    rw [hu, timeClip_ok _ (by rw [msPerDay_eq]; omega)]
    generalize hudef : z * msPerDay + msPerDay + o1 - o2 = u
    have hz' : z ≤ u / msPerDay ∧ u / msPerDay ≤ z + 2 := by
      rw [msPerDay_eq] at *
      omega
    have hY1 : 1 ≤ yearFromDay (u / msPerDay) := yearFromDay_ge_one _ (by omega)
    by_cases hY : yearFromDay (u / msPerDay) ≤ 9999
    · obtain ⟨iso, hiso, hslice⟩ := sliceTo_iso4 u ⟨by omega, hY⟩
      refine ⟨iso, hiso, ?_⟩
      rw [hslice]
      unfold sanitizeDate
      split_ifs with hv
      · right
        have hM := monthFromDay_range (u / msPerDay)
        have hD := dateFromDay_range (u / msPerDay)
        have hDle := daysInMonth_le (isLeapYear (yearFromDay (u / msPerDay)))
          (monthFromDay (u / msPerDay) + 1)
        have hdle := daysInMonth_le (isLeapYear (yn : Int)) (mn : Int)
        unfold jsStrLe
        have hnot : ¬ jsStrLt (String.mk (dateChars (yearFromDay (u / msPerDay)).toNat
            (monthFromDay (u / msPerDay) + 1).toNat (dateFromDay (u / msPerDay)).toNat))
            (String.mk (dateChars yn mn dn)) = true := by
          rw [jsStrLt_dateChars _ _ _ _ _ _ (by omega) (by omega) (by omega) hy9 (by omega)
            (by omega)]
          intro hlt
          have hk : dateKey (yearFromDay (u / msPerDay)) (monthFromDay (u / msPerDay))
              (dateFromDay (u / msPerDay)) < dateKey yn ((mn : Int) - 1) dn := by
            unfold dateKey
            omega
          have hlt2 := makeDay_lt _ _ _ _ _ _ hM hD hm0 hdim2 hk
          have hrt := makeDay_fromDay (u / msPerDay) 0
          rw [add_zero, add_zero] at hrt
          rw [hrt, hzdef] at hlt2
          omega
        simpa using hnot
      · left
        rfl
    · obtain ⟨iso, hiso, hsan⟩ := sliceTo_iso6 u (by omega)
      exact ⟨iso, hiso, Or.inl hsan⟩

theorem setEndInput_start (p : Page) (id j : StartId) (el : DateInput) :
    (p.setEndInput id el).startInput j = p.startInput j := by
  cases id <;> cases j <;> rfl

theorem setEndInput_end (p : Page) (id : StartId) (el : DateInput) :
    (p.setEndInput id el).endInput id = el := by
  cases id <;> rfl

theorem setEndInput_end_ne (p : Page) (id j : StartId) (el : DateInput) (h : j ≠ id) :
    (p.setEndInput id el).endInput j = p.endInput j := by
  cases id <;> cases j <;> first | rfl | exact absurd rfl h

theorem setStartInput_start (p : Page) (id : StartId) (el : DateInput) :
    (p.setStartInput id el).startInput id = el := by
  cases id <;> rfl

theorem setStartInput_start_ne (p : Page) (id j : StartId) (el : DateInput) (h : j ≠ id) :
    (p.setStartInput id el).startInput j = p.startInput j := by
  cases id <;> cases j <;> first | rfl | exact absurd rfl h

theorem setStartInput_end (p : Page) (id j : StartId) (el : DateInput) :
    (p.setStartInput id el).endInput j = p.endInput j := by
  cases id <;> cases j <;> rfl

theorem throwUncaught_inputs (p : Page) (msg : String) (j : StartId) :
    (p.throwUncaught msg).startInput j = p.startInput j
    ∧ (p.throwUncaught msg).endInput j = p.endInput j := by
  cases j <;> exact ⟨rfl, rfl⟩

theorem onStartChange_start (tz : TimeZone) (now : Int) (id j : StartId) (p : Page) :
    (onStartChange tz now id p).startInput j = p.startInput j := by
  unfold onStartChange
  simp only
  split_ifs <;> (try split) <;>
    simp only [(throwUncaught_inputs _ _ j).1, setEndInput_start]

theorem onStartChange_end_ne (tz : TimeZone) (now : Int) (id j : StartId) (p : Page)
    (h : j ≠ id) : (onStartChange tz now id p).endInput j = p.endInput j := by
  unfold onStartChange
  simp only
  split_ifs <;> (try split) <;>
    simp only [(throwUncaught_inputs _ _ j).2, setEndInput_end_ne _ _ _ _ h]

theorem onStartChange_same (tz : TimeZone) (hb : tz.Bounded) (now : Int) (id : StartId)
    (p : Page) (hv : (p.startInput id).value = "" ∨ isDate4 (p.startInput id).value = true) :
    PairOk (onStartChange tz now id p) id := by
  intro hne
  rw [onStartChange_start] at hne ⊢
  rcases hv with hv | hv
  · exact absurd hv hne
  · obtain ⟨iso, hiso, hres⟩ := pushed_end tz hb _ hv
    unfold onStartChange
    simp only [hne, ne_eq, not_false_eq_true, if_true, hiso]
    split_ifs with hc
    · simp only [setEndInput_end]
      refine ⟨hv, trivial, ?_⟩
      intro hne2
      rcases hres with hres | hres
      · exact absurd hres hne2
      · exact hres
    · simp only [setEndInput_end]
      refine ⟨hv, trivial, ?_⟩
      intro hne2
      have : ¬ jsStrLe (p.endInput id).value (p.startInput id).value = true := by
        intro h
        exact hc ⟨hne2, h⟩
      apply jsStrLe_of_lt
      simpa [jsStrLe] using this

theorem startId_eq_or_ne (a b : StartId) : a = b ∨ a ≠ b := by
  cases a <;> cases b <;> simp

/-- Every reachable page keeps both start/end pairs in order. -/
theorem reachable_pairOk (tz : TimeZone) (hb : tz.Bounded) (p : Page) (hr : Reachable tz p) :
    ∀ j, PairOk p j := by
  induction hr with
  | load p now h1 h2 h3 h4 =>
    intro j hne
    exfalso
    apply hne
    cases j
    · exact h1
    · exact h3
  | pickStart p now id v _ hv ih =>
    intro j
    rcases startId_eq_or_ne j id with h | h
    · subst h
      unfold pickStart
      apply onStartChange_same tz hb
      rw [setStartInput_start]
      exact hv
    · unfold pickStart PairOk
      rw [onStartChange_start, onStartChange_end_ne _ _ _ _ _ h,
        setStartInput_start_ne _ _ _ _ h, setStartInput_end]
      exact ih j
  | pickEnd p id v _ hv ih =>
    intro j
    rcases startId_eq_or_ne j id with h | h
    · subst h
      unfold pickEnd PairOk
      rw [setEndInput_start, setEndInput_end]
      intro hne
      obtain ⟨i1, i2, _⟩ := ih j hne
      refine ⟨i1, i2, ?_⟩
      intro hne2
      rcases hv with hv | hv
      · exact absurd hv hne2
      · rw [← i2]
        exact hv.2
    · unfold pickEnd PairOk
      rw [setEndInput_start, setEndInput_end_ne _ _ _ _ h]
      exact ih j
  | other p q _ e1 e2 e3 e4 ih =>
    intro j
    have hs : q.startInput j = p.startInput j := by cases j <;> assumption
    have he : q.endInput j = p.endInput j := by cases j <;> assumption
    unfold PairOk
    rw [hs, he]
    exact ih j

theorem confirm_new_requests (env : Env) (net : FetchResult) (p : Page) :
    ∃ new, sentRequests (confirm env net p) = sentRequests p ++ new
      ∧ ∀ req ∈ new, req.method = "POST" →
          p.mStart.value ≠ "" ∧ p.mEnd.value ≠ ""
          ∧ ∃ token carId, req = reserveRequest token carId p.mStart.value p.mEnd.value := by
  unfold confirm
  cases getAuth env p.storage with
  | none => exact ⟨[], by simp [sentRequests], by simp⟩
  | some a =>
    simp only
    split_ifs with hblank
    · exact ⟨[], by simp [sentRequests, toast], by simp⟩
    · have hse : p.mStart.value ≠ "" ∧ p.mEnd.value ≠ "" := by
        constructor
        · intro h; exact hblank (Or.inl h)
        · intro h; exact hblank (Or.inr h)
      cases p.activeCar with
      | none => exact ⟨[], by simp [sentRequests, toast, reserveFailed], by simp⟩
      | some car =>
        simp only
        cases getProp env car "id" with
        | error e => exact ⟨[], by simp [sentRequests, toast, reserveFailed], by simp⟩
        | ok carId =>
          simp only
          have hone : ∀ req ∈ [reserveRequest a.token carId p.mStart.value p.mEnd.value],
              req.method = "POST" → p.mStart.value ≠ "" ∧ p.mEnd.value ≠ ""
                ∧ ∃ token carId, req = reserveRequest token carId p.mStart.value p.mEnd.value := by
            intro req hreq _
            simp only [List.mem_singleton] at hreq
            exact ⟨hse.1, hse.2, _, _, hreq⟩
          cases net with
          | error e =>
            exact ⟨[reserveRequest a.token carId p.mStart.value p.mEnd.value],
              by simp [sentRequests, toast, reserveFailed], hone⟩
          | ok r =>
            simp only
            split_ifs with hok
            · cases getProp env _ "detail" <;>
                exact ⟨[reserveRequest a.token carId p.mStart.value p.mEnd.value],
                  by simp [sentRequests, toast, reserveFailed], hone⟩
            · refine ⟨[reserveRequest a.token carId p.mStart.value p.mEnd.value,
                  ⟨"GET", API ++ "/cars?" ++ carsQuery p, [], none⟩], ?_, ?_⟩
              · simp only [sentRequests, loadCarsStart_log]
                by_cases hm : p.modalOpen = true <;>
                  simp [closeModal, toast, hm, carsQuery, carsParams]
              · intro req hreq hpost
                simp only [List.mem_cons, List.mem_singleton, List.not_mem_nil, or_false] at hreq
                rcases hreq with hreq | hreq
                · exact ⟨hse.1, hse.2, _, _, hreq⟩
                · rw [hreq] at hpost
                  exact absurd hpost (by simp)

/-! ## Date ranges -/

/-- C4 at its failing input: in central European time the start date 30 March
2025, the day summer time begins, is chosen while the end input holds an
earlier date.  The minimum of the end input becomes the start date, and its
value becomes 30 March, the start date itself, not the day after.  The same
events in UTC give 31 March. -/
theorem start_change_on_dst_day :
    jsStrLe searchPage.endDate.value "2025-03-30" = true
    ∧ (pickStart europeBerlin2025 1742472000000 .startDate "2025-03-30" searchPage).endDate.min
        = "2025-03-30"
    ∧ (pickStart europeBerlin2025 1742472000000 .startDate "2025-03-30" searchPage).endDate.value
        = "2025-03-30"
    ∧ (pickStart utcZone 1742472000000 .startDate "2025-03-30" searchPage).endDate.value
        = "2025-03-31" := by
  decide

/-- Counterexample to C9 as stated: after page load the start date 10 April
2025 is chosen in the modal and then the same day as end date, which respects
the minimum of the end input.  Both dates are set and the end date is not
after the start date; confirm submits the request with the two equal dates. -/
theorem same_day_range_is_reachable :
    Reachable utcZone sameDayPage
    ∧ sameDayPage.mStart.value = "2025-04-10"
    ∧ sameDayPage.mEnd.value = "2025-04-10"
    ∧ jsStrLt sameDayPage.mStart.value sameDayPage.mEnd.value = false
    ∧ (sentRequests (confirm sampleEnv (.ok ⟨true, .ok (.obj [])⟩) sameDayPage)).head?
        = some (reserveRequest "t0k3n" (some (.str "c1")) "2025-04-10" "2025-04-10") := by
  refine ⟨?_, by decide, by decide, by decide, by rfl⟩
  exact Reachable.other _ _
    (Reachable.pickEnd _ .mStart "2025-04-10"
      (Reachable.pickStart _ 1742472000000 .mStart "2025-04-10"
        (Reachable.load blankPage 1742472000000 rfl rfl rfl rfl) (Or.inr (by decide)))
      (Or.inr ⟨by decide, by decide⟩))
    rfl rfl rfl rfl

/-- C9 (amended): in a time zone whose offset is bounded, in every page
reached from page load by start-date changes and by end-date selections that
respect the minimum of the end input, for both pairs, whenever the start date
and the end date are set the end date is not before the start date (it may be
the same day); and every reservation request confirm sends from such a page
carries the two modal dates, non-blank, the end date not before the start
date. -/
theorem dates_not_inverted (tz : TimeZone) (hb : tz.Bounded) (p : Page)
    (hr : Reachable tz p) :
    (∀ id, (p.startInput id).value ≠ "" → (p.endInput id).value ≠ "" →
        jsStrLe (p.startInput id).value (p.endInput id).value = true)
    ∧ (∀ env net, ∃ new, sentRequests (confirm env net p) = sentRequests p ++ new
        ∧ ∀ req ∈ new, req.method = "POST" →
            ∃ token carId start stop, req = reserveRequest token carId start stop
              ∧ start ≠ "" ∧ stop ≠ "" ∧ jsStrLe start stop = true) := by
  have hinv := reachable_pairOk tz hb p hr
  refine ⟨fun id h1 h2 => (hinv id h1).2.2 h2, ?_⟩
  intro env net
  obtain ⟨new, hnew, hall⟩ := confirm_new_requests env net p
  refine ⟨new, hnew, ?_⟩
  intro req hreq hpost
  obtain ⟨h1, h2, token, carId, hr2⟩ := hall req hreq hpost
  exact ⟨token, carId, _, _, hr2, h1, h2, (hinv .mStart h1).2.2 h2⟩

theorem utcZone_bounded : utcZone.Bounded := by
  intro t
  simp [utcZone]

/-- Witness of C9 (amended): the page where both modal dates are 10 April. -/
theorem dates_not_inverted_witness :
    utcZone.Bounded ∧ Reachable utcZone sameDayPage
    ∧ jsStrLe sameDayPage.mStart.value sameDayPage.mEnd.value = true :=
  have hr : Reachable utcZone sameDayPage :=
    Reachable.other _ _
      (Reachable.pickEnd _ .mStart "2025-04-10"
        (Reachable.pickStart _ 1742472000000 .mStart "2025-04-10"
          (Reachable.load blankPage 1742472000000 rfl rfl rfl rfl) (Or.inr (by decide)))
        (Or.inr ⟨by decide, by decide⟩))
      rfl rfl rfl rfl
  ⟨utcZone_bounded, hr,
    (dates_not_inverted utcZone utcZone_bounded sameDayPage hr).1 .mStart (by decide) (by decide)⟩

end GearUp
